import Mathlib

/-!
Verification of the knowledge-graph builder and quality evaluator of the
`Knowledge_graph_catalysis` repository
(`KNOWLEDGEGRAPH/scripts/knowledge_graph_builder.py` and
`KNOWLEDGEGRAPH/scripts/kg_quality_evaluator.py`).

The builder's `networkx.MultiDiGraph` is embedded as an association list of
node identifiers to attribute records plus a list of directed labelled edges
(a multiset: one list entry per parallel edge).  The external chemistry
library (RDKit) is not part of the repository; its two entry points
`Chem.MolFromSmiles` (which returns `None` on a parse failure) and
`Chem.MolToSmiles` are abstracted as an `Option`-valued parse function and a
serializer over an arbitrary molecule type, and the substructure matcher
`HasSubstructMatch` / `MolFromSmarts` likewise.  All graph-merging code is
translated line by line from `knowledge_graph_builder.py`; the evaluator's
floating-point arithmetic (`0.4`, `0.3`, `statistics.mean`) is modelled over
the rationals.
-/

/-- Attributes stored on a graph node.  `type_` and `label` are set for every
node the builder creates; `smiles` and `reactivity_class` are only set on
`Molecule` nodes (mirroring networkx attribute dictionaries, an absent key is
`none`). -/
structure NodeData where
  type_ : String
  label : String
  smiles : Option String := none
  reactivity_class : Option String := none
deriving DecidableEq, Repr

/-- A directed labelled edge of the multigraph. -/
structure Edge where
  src : String
  dst : String
  relation : String
deriving DecidableEq, Repr

/-- The builder's `nx.MultiDiGraph`: node attribute map (association list,
node keys are unique in every graph the builder constructs) and edge multiset
(one entry per parallel edge, in insertion order). -/
structure Graph where
  nodes : List (String × NodeData)
  edges : List Edge
deriving DecidableEq, Repr

def Graph.empty : Graph := ⟨[], []⟩

/-- Node-attribute lookup (`graph.nodes[id]`, or `None` when absent). -/
def Graph.find (g : Graph) (id : String) : Option NodeData :=
  (g.nodes.find? (fun e => e.1 == id)).map (·.2)

/-- `graph.has_node(id)`. -/
def Graph.hasNode (g : Graph) (id : String) : Bool :=
  (g.find id).isSome

/-- The builder's guarded upsert pattern
`if not graph.has_node(k): graph.add_node(k, …)`. -/
def Graph.insertIfAbsent (g : Graph) (k : String) (d : NodeData) : Graph :=
  if (g.find k).isSome then g else ⟨g.nodes ++ [(k, d)], g.edges⟩

/-- `graph.add_node(k, type=ty, label=lab)`: networkx merges the given
attributes into an existing node's dictionary, or creates the node with just
those attributes. -/
def Graph.setTypeLabel (g : Graph) (k ty lab : String) : Graph :=
  if (g.find k).isSome then
    ⟨g.nodes.map (fun e =>
        if e.1 = k then (e.1, ⟨ty, lab, e.2.smiles, e.2.reactivity_class⟩) else e),
     g.edges⟩
  else ⟨g.nodes ++ [(k, ⟨ty, lab, none, none⟩)], g.edges⟩

/-- `graph.nodes[k]['label'] = lab` (the builder only executes this when the
node exists; on an absent key it is a no-op here). -/
def Graph.setLabel (g : Graph) (k lab : String) : Graph :=
  ⟨g.nodes.map (fun e =>
      if e.1 = k then (e.1, ⟨e.2.type_, lab, e.2.smiles, e.2.reactivity_class⟩) else e),
   g.edges⟩

/-- `graph.add_edge(s, t, relation=r)`; every call site adds edges between
nodes that already exist, so networkx's implicit node creation never fires. -/
def Graph.addEdge (g : Graph) (s t r : String) : Graph :=
  ⟨g.nodes, g.edges ++ [⟨s, t, r⟩]⟩

/-! ### Pointwise characterization of the graph operations -/

lemma List.find?_pair_append (l1 l2 : List (String × NodeData)) (id : String) :
    ((l1 ++ l2).find? (fun e => e.1 == id)) =
      match l1.find? (fun e => e.1 == id) with
      | some x => some x
      | none => l2.find? (fun e => e.1 == id) := by
  rw [List.find?_append]
  cases l1.find? (fun e => e.1 == id) <;> rfl

lemma Graph.find_addEdge (g : Graph) (s t r id : String) :
    (g.addEdge s t r).find id = g.find id := rfl

lemma find_nodes_append_single (nodes : List (String × NodeData)) (es : List Edge)
    (k : String) (d : NodeData) (id : String)
    (hk : nodes.find? (fun e => e.1 == k) = none) :
    (Graph.find ⟨nodes ++ [(k, d)], es⟩ id) =
      if id = k then some d else Graph.find ⟨nodes, es⟩ id := by
  show ((nodes ++ [(k, d)]).find? (fun e => e.1 == id)).map (·.2) = _
  rw [List.find?_pair_append]
  rcases h : nodes.find? (fun e => e.1 == id) with _ | x
  · by_cases hik : id = k
    · subst hik
      simp [h, List.find?, Graph.find]
    · have h1 : ((k : String) == id) = false := by
        simp only [beq_eq_false_iff_ne, ne_eq]
        exact fun hky => hik hky.symm
      simp [h, List.find?, h1, Graph.find, hik]
  · have hik : id ≠ k := by
      intro he
      subst he
      rw [hk] at h
      exact Option.noConfusion h
    simp [h, Graph.find, hik]

lemma find_none_of_not_isSome (g : Graph) (k : String)
    (h : ¬ (g.find k).isSome = true) : g.nodes.find? (fun e => e.1 == k) = none := by
  rcases hf : g.nodes.find? (fun e => e.1 == k) with _ | x
  · exact hf
  · exact absurd (by rw [Graph.find, hf]; rfl) h

lemma Graph.find_insertIfAbsent (g : Graph) (k : String) (d : NodeData) (id : String) :
    (g.insertIfAbsent k d).find id =
      if (g.find k).isSome then g.find id
      else if id = k then some d else g.find id := by
  unfold Graph.insertIfAbsent
  split
  · rfl
  · next h =>
    rw [find_nodes_append_single g.nodes g.edges k d id (find_none_of_not_isSome g k h)]

lemma find?_map_update (l : List (String × NodeData)) (k : String)
    (f : NodeData → NodeData) (id : String) :
    ((l.map (fun e => if e.1 = k then (e.1, f e.2) else e)).find? (fun e => e.1 == id)) =
      if id = k then (l.find? (fun e => e.1 == id)).map (fun e => (e.1, f e.2))
      else l.find? (fun e => e.1 == id) := by
  induction l with
  | nil =>
    by_cases hik : id = k <;> simp [hik]
  | cons e l ih =>
    have hkey : ((if e.1 = k then (e.1, f e.2) else e).1) = e.1 := by split <;> rfl
    simp only [List.map_cons, List.find?_cons, hkey]
    cases he : (e.1 == id) with
    | true =>
      have heq : e.1 = id := eq_of_beq he
      simp only [he, cond_true]
      by_cases hik : id = k
      · have hek : e.1 = k := heq.trans hik
        simp [hek, hik]
      · have hek : ¬ e.1 = k := fun h => hik (heq.symm.trans h)
        simp [hek, hik]
    | false =>
      simp only [he, cond_false]
      rw [ih]

lemma find?_map_setLabel (l : List (String × NodeData)) (k lab id : String) :
    ((l.map (fun e =>
        if e.1 = k then (e.1, ⟨e.2.type_, lab, e.2.smiles, e.2.reactivity_class⟩) else e)).find?
        (fun e => e.1 == id)) =
      if id = k then
        (l.find? (fun e => e.1 == id)).map
          (fun e => (e.1, (⟨e.2.type_, lab, e.2.smiles, e.2.reactivity_class⟩ : NodeData)))
      else l.find? (fun e => e.1 == id) :=
  find?_map_update l k (fun d => ⟨d.type_, lab, d.smiles, d.reactivity_class⟩) id

lemma find?_map_setTypeLabel (l : List (String × NodeData)) (k ty lab id : String) :
    ((l.map (fun e =>
        if e.1 = k then (e.1, ⟨ty, lab, e.2.smiles, e.2.reactivity_class⟩) else e)).find?
        (fun e => e.1 == id)) =
      if id = k then
        (l.find? (fun e => e.1 == id)).map
          (fun e => (e.1, (⟨ty, lab, e.2.smiles, e.2.reactivity_class⟩ : NodeData)))
      else l.find? (fun e => e.1 == id) :=
  find?_map_update l k (fun d => ⟨ty, lab, d.smiles, d.reactivity_class⟩) id

lemma Graph.find_setLabel (g : Graph) (k lab id : String) :
    (g.setLabel k lab).find id =
      if id = k then
        (g.find id).map (fun d => ⟨d.type_, lab, d.smiles, d.reactivity_class⟩)
      else g.find id := by
  unfold Graph.setLabel Graph.find
  simp only
  rw [find?_map_setLabel]
  split
  · next h => cases g.nodes.find? (fun e => e.1 == id) <;> rfl
  · rfl

lemma Graph.find_setTypeLabel (g : Graph) (k ty lab id : String) :
    (g.setTypeLabel k ty lab).find id =
      if (g.find k).isSome then
        (if id = k then
          (g.find id).map (fun d => ⟨ty, lab, d.smiles, d.reactivity_class⟩)
         else g.find id)
      else (if id = k then some ⟨ty, lab, none, none⟩ else g.find id) := by
  unfold Graph.setTypeLabel
  split
  · next h =>
    simp only [Graph.find]
    rw [find?_map_setTypeLabel]
    split
    · next hik => cases g.nodes.find? (fun e => e.1 == id) <;> rfl
    · rfl
  · next h =>
    rw [find_nodes_append_single g.nodes g.edges k ⟨ty, lab, none, none⟩ id
      (find_none_of_not_isSome g k h)]

/-! ### String identifier facts

Node identifiers are built by Python f-string concatenation
(`f"MOL_{can_smiles}"`, `f"Reaction_{paper_id}"`, …).  The lemmas below
record that the different identifier namespaces cannot collide unless the
arbitrary paper identifier itself is involved. -/

lemma String.append_eq_append_iff (p a b : String) : (p ++ a = p ++ b) ↔ a = b := by
  constructor
  · intro h
    have hd : p.data ++ a.data = p.data ++ b.data := by
      have := congrArg String.data h
      rwa [String.data_append, String.data_append] at this
    exact congrArg String.mk (List.append_cancel_left hd)
  · intro h
    rw [h]

lemma String.append_ne_append_of_take4 (p q : String)
    (hp : 4 ≤ p.data.length) (hq : 4 ≤ q.data.length)
    (h4 : p.data.take 4 ≠ q.data.take 4) (a b : String) : p ++ a ≠ q ++ b := by
  intro h
  have hd : p.data ++ a.data = q.data ++ b.data := by
    have := congrArg String.data h
    rwa [String.data_append, String.data_append] at this
  have ht : (p.data ++ a.data).take 4 = (q.data ++ b.data).take 4 := by rw [hd]
  rw [List.take_append_of_le_length hp, List.take_append_of_le_length hq] at ht
  exact h4 ht

lemma String.ne_append_self (p s : String) (hp : p.data.length ≠ 0) :
    s ≠ p ++ s := by
  intro h
  have hl := congrArg String.length h
  rw [String.length_append] at hl
  have : p.length = 0 := by omega
  exact hp this

/-! ### Structure canonicalizer and reactivity classifier

`UniversalGraphRAGBuilder.canonicalize` and
`UniversalGraphRAGBuilder.classify_molecule_reactivity`
(`knowledge_graph_builder.py`, lines 16-66).  RDKit is external to the
repository, so `Chem.MolFromSmiles` / `Chem.MolToSmiles` /
`Chem.MolFromSmarts` / `HasSubstructMatch` are abstract parameters: a parse
failure (RDKit returning `None`, or raising inside the `try` block) is the
`none` case. -/

/-- `canonicalize` (lines 16-24): parse the SMILES; on success re-serialize
it canonically, otherwise return the input unchanged (the `try/except` and
the `if mol:` test both fall through to `return smiles`). -/
def canonicalize {μ : Type} (MolFromSmiles : String → Option μ) (MolToSmiles : μ → String)
    (smiles : String) : String :=
  match MolFromSmiles smiles with
  | some mol => MolToSmiles mol
  | none => smiles

/-- The SMARTS pattern library of `classify_molecule_reactivity`
(lines 37-57), in Python dict insertion order. -/
def patternLibrary : List (String × String) :=
  [("Alpha-Diazo-Ester", "[N-]=[N+]=C-C(=O)O"),
   ("Alpha-Diazo-Ketone", "[N-]=[N+]=C-C(=O)[#6]"),
   ("Aryl-Diazo", "[N-]=[N+]=N-c"),
   ("Diazo-Group", "[N-]=[N+]=C"),
   ("Styrene-Like", "C=C-c"),
   ("Michael-Acceptor", "C=C-C(=O)"),
   ("Isolated-Alkene", "C=C"),
   ("Aryl-Amine", "Nc"),
   ("Alkyl-Amine", "NC"),
   ("Amide", "NC(=O)"),
   ("Epoxide/Aziridine/Cyclopropane", "C1CC1"),
   ("Heme-Like-Core", "n1ccc2c1")]

/-- `classify_molecule_reactivity` (lines 26-66): parse the SMILES (empty
tag list on failure), then for each library entry in order compile the
SMARTS (`if pattern and …` skips a failed compile) and append the entry's
label when the molecule has a substructure match. -/
def classify_molecule_reactivity {μ ν : Type} (MolFromSmiles : String → Option μ)
    (MolFromSmarts : String → Option ν) (HasSubstructMatch : μ → ν → Bool)
    (smiles : String) : List String :=
  match MolFromSmiles smiles with
  | none => []
  | some mol =>
    patternLibrary.foldl (fun tags pr =>
      match MolFromSmarts pr.2 with
      | some pattern => if HasSubstructMatch mol pattern then tags ++ [pr.1] else tags
      | none => tags) []

/-! ### Per-document input records

The JSON record consumed by `_add_paper_to_graph` (lines 78-147).  Every
field is read with `dict.get(key, default)`, so each is optional; `none`
models an absent key and the builder applies the Python defaults. -/

/-- One entry of `extracted_visual_entities`; the builder reads
`entity.get("predicted_smiles", "")`. -/
structure VisualEntityJson where
  predicted_smiles : Option String
deriving DecidableEq, Repr

/-- `extracted_text_entities`; the builder reads each bucket with
`text_data.get(bucket, [])`. -/
structure TextEntitiesJson where
  peptides : Option (List String)
  conditions : Option (List String)
  chemicals : Option (List String)
  reaction_types : Option (List String)
deriving DecidableEq, Repr

/-- A decoded per-document JSON object.  `data.get("source_file",
json_path.stem)` falls back to the file stem, which is supplied separately
to `_add_paper_to_graph`. -/
structure PaperJson where
  source_file : Option String
  extracted_text_entities : Option TextEntitiesJson
  extracted_visual_entities : Option (List VisualEntityJson)
deriving DecidableEq, Repr

def TextEntitiesJson.empty : TextEntitiesJson := ⟨none, none, none, none⟩

/-- `paper_id = data.get("source_file", json_path.stem)` (line 82). -/
def paperIdOf (stem : String) (data : PaperJson) : String :=
  data.source_file.getD stem

def textOf (data : PaperJson) : TextEntitiesJson :=
  data.extracted_text_entities.getD TextEntitiesJson.empty

def rxnTypesOf (data : PaperJson) : List String :=
  (textOf data).reaction_types.getD []

/-- Lines 89-93: `" / ".join(rxn_types[:2])` when the bucket is non-empty,
else the generic fallback label. -/
def rxnLabelOf (data : PaperJson) : String :=
  if (rxnTypesOf data).isEmpty then "Catalytic Process"
  else String.intercalate " / " ((rxnTypesOf data).take 2)

def pepsOf (data : PaperJson) : List String := (textOf data).peptides.getD []

def condsOf (data : PaperJson) : List String := (textOf data).conditions.getD []

def chemsOf (data : PaperJson) : List String := (textOf data).chemicals.getD []

/-- The raw `predicted_smiles` strings of the visual entities (line 105-106). -/
def visRaws (data : PaperJson) : List String :=
  (data.extracted_visual_entities.getD []).map (fun e => e.predicted_smiles.getD "")

/-- `raw_smiles.split('.')[0]` (line 110): the first fragment of a
multi-fragment SMILES.  Python's `str.split` on a separator never returns an
empty list and its first element is exactly the prefix of the string before
the first separator occurrence (the whole string when the separator does not
occur). -/
def firstFragment (s : String) : String :=
  String.mk (s.data.takeWhile (fun c => c != '.'))

/-! ### The graph merge engine: `_add_paper_to_graph` (lines 78-147)

The two chemistry callbacks are abstracted as `canon` (the builder calls
`self.canonicalize`) and `classify` (`self.classify_molecule_reactivity`);
the theorems either hold for every such pair or instantiate them with
`canonicalize` / `classify_molecule_reactivity` above. -/

section Builder

variable (canon : String → String) (classify : String → List String)

/-- The `Molecule` node key `f"MOL_{can_smiles}"` for one visual entity
(lines 110, 117). -/
def molKeyOf (raw : String) : String :=
  "MOL_" ++ canon (firstFragment raw)

/-- The attributes of a freshly created `Molecule` node (line 121):
`type="Molecule"`, `smiles=can_smiles`, `label=can_smiles[:20]+"..."`,
`reactivity_class` the `" | "`-joined tag list or `"Unknown"` (line 114). -/
def molDataOf (raw : String) : NodeData :=
  let can := canon (firstFragment raw)
  let tags := classify can
  ⟨"Molecule", String.mk (can.data.take 20) ++ "...", some can,
   some (if tags.isEmpty then "Unknown" else String.intercalate " | " tags)⟩

/-- Loop body of the visual-entity loop (lines 105-124): skip raw SMILES of
length < 10, else upsert the `Molecule` node and add its
`PARTICIPANT_IN` edge. -/
def molStep (rid : String) (g : Graph) (raw : String) : Graph :=
  if raw.length < 10 then g
  else ((g.insertIfAbsent (molKeyOf canon raw) (molDataOf canon classify raw)).addEdge
    (molKeyOf canon raw) rid "PARTICIPANT_IN")

/-- Loop body of the peptide loop (lines 129-133). -/
def pepStep (rid : String) (g : Graph) (pep : String) : Graph :=
  (g.insertIfAbsent ("PEP_" ++ pep) ⟨"Peptide", pep, none, none⟩).addEdge
    ("PEP_" ++ pep) rid "CATALYZES"

/-- Loop body of the condition loop (lines 136-140); note the edge runs
Reaction → Condition. -/
def condStep (rid : String) (g : Graph) (cond : String) : Graph :=
  (g.insertIfAbsent ("COND_" ++ cond) ⟨"Condition", cond, none, none⟩).addEdge
    rid ("COND_" ++ cond) "HAS_CONDITION"

/-- Loop body of the named-chemical loop (lines 143-147). -/
def chemStep (rid : String) (g : Graph) (chem : String) : Graph :=
  (g.insertIfAbsent ("CHEM_" ++ chem) ⟨"Chemical", chem, none, none⟩).addEdge
    ("CHEM_" ++ chem) rid "INVOLVED_IN"

/-- `_add_paper_to_graph` after the JSON record has been decoded
(lines 82-147), in the source's statement order. -/
def addPaperToGraph (g : Graph) (stem : String) (data : PaperJson) : Graph :=
  let paper_id := paperIdOf stem data
  let g1 := g.setTypeLabel paper_id "Paper" paper_id
  let rxn_label := rxnLabelOf data
  let reaction_id := "Reaction_" ++ paper_id
  let g2 :=
    if g1.hasNode reaction_id then
      (if rxn_label ≠ "Catalytic Process" then g1.setLabel reaction_id rxn_label else g1)
    else g1.insertIfAbsent reaction_id ⟨"Reaction", rxn_label, none, none⟩
  let g3 := g2.addEdge paper_id reaction_id "REPORTS"
  let g4 := (visRaws data).foldl (molStep canon classify reaction_id) g3
  let g5 := (pepsOf data).foldl (pepStep reaction_id) g4
  let g6 := (condsOf data).foldl (condStep reaction_id) g5
  (chemsOf data).foldl (chemStep reaction_id) g6

/-- `process_batch` (lines 68-76): merge every record in directory order.
The loop body opens and `json.load`s the file with no exception handling, so
an unreadable or unparseable file (`none`) raises and aborts the whole
batch; the Boolean records whether that happened, and the returned graph is
`self.graph` at that moment (documents after the bad one are never
processed). -/
def process_batch (g : Graph) : List (String × Option PaperJson) → Graph × Bool
  | [] => (g, false)
  | (_, none) :: _ => (g, true)
  | (stem, some data) :: rest =>
    process_batch (addPaperToGraph canon classify g stem data) rest

/-- Merging a list of decoded records in order (the abort-free part of
`process_batch`); also used to describe the graphs reachable by the
builder. -/
def mergeDocs (g : Graph) (docs : List (String × PaperJson)) : Graph :=
  docs.foldl (fun g d => addPaperToGraph canon classify g d.1 d.2) g

/-- The graph states `self.graph` can reach: everything obtained from the
initial empty `MultiDiGraph` by merging some list of decoded records. -/
def Reachable (g : Graph) : Prop :=
  ∃ docs : List (String × PaperJson), g = mergeDocs canon classify Graph.empty docs

end Builder

/-! ### The quality evaluator: `KGQualityEvaluator._calculate_rcs`
(`kg_quality_evaluator.py`, lines 44-77)

The evaluator re-reads the GraphML artifact; serialization is assumed to
round-trip, so it operates on the same `Graph` values.  Python's `float`
literals `0.4` / `0.3` and `statistics.mean` are modelled exactly over `ℚ`
(the quantities involved are sums of small decimal fractions; binary
floating-point rounding is not modelled). -/

/-- `d.get('type')` for a neighbor id (`None` when the node or attribute is
absent). -/
def nodeTypeOf (g : Graph) (id : String) : Option String :=
  (g.find id).map (·.type_)

/-- `list(self.graph.predecessors(r)) + list(self.graph.successors(r))`
(line 64), read off the edge multiset.  Only existence of a neighbor of a
given type is consumed, so multiplicities are irrelevant. -/
def allConnected (g : Graph) (r : String) : List String :=
  ((g.edges.filter (fun e => e.dst == r)).map (·.src)) ++
    ((g.edges.filter (fun e => e.src == r)).map (·.dst))

/-- The three accumulating booleans of the neighbor loop (lines 52-70):
`has_catalyst`, `has_condition`, `has_participant`. -/
def rcsFlags (g : Graph) : List String → Bool × Bool × Bool → Bool × Bool × Bool
  | [], acc => acc
  | n :: rest, (cat, cond, part) =>
    let t := nodeTypeOf g n
    rcsFlags g rest
      (cat || (t == some "Peptide" || t == some "Chemical"),
       cond || (t == some "Condition"),
       part || (t == some "Molecule"))

/-- The per-reaction score (line 74). -/
def rcsScore (g : Graph) (r : String) : ℚ :=
  let flags := rcsFlags g (allConnected g r) (false, false, false)
  (if flags.1 then (4 : ℚ)/10 else 0) + (if flags.2.1 then (3 : ℚ)/10 else 0) +
    (if flags.2.2 then (3 : ℚ)/10 else 0)

/-- `_calculate_rcs` (lines 44-77): mean of the per-reaction scores over all
`type == 'Reaction'` nodes, `0.0` when there are none (both the early
`if not reactions` return and the final `if scores else 0.0` guard). -/
def calculate_rcs (g : Graph) : ℚ :=
  let reactions := (g.nodes.filter (fun e => e.2.type_ == "Reaction")).map (·.1)
  if reactions.isEmpty then 0
  else
    let scores := reactions.map (rcsScore g)
    if scores.isEmpty then 0 else scores.sum / scores.length

/-! ### Pointwise characterization of a whole document merge -/

/-- Left-biased choice used to express "a node keeps its attributes once
present; otherwise the first creating loop iteration wins". -/
def keepOr (o p : Option NodeData) : Option NodeData :=
  match o with
  | some x => some x
  | none => p

@[simp] lemma keepOr_some (x : NodeData) (p : Option NodeData) : keepOr (some x) p = some x := rfl

@[simp] lemma keepOr_none (p : Option NodeData) : keepOr none p = p := rfl

lemma keepOr_assoc (a b c : Option NodeData) :
    keepOr (keepOr a b) c = keepOr a (keepOr b c) := by
  cases a <;> rfl

/-- Effect on `find` of a loop of guarded inserts plus edge additions: an
already present node is untouched, an absent one receives the data of the
first loop iteration whose key matches. -/
lemma find_foldl_ins {α : Type} (key : α → String) (dat : α → NodeData)
    (es ed : α → String) (rel : String) :
    ∀ (l : List α) (g : Graph) (id : String),
    (l.foldl (fun g a =>
        (g.insertIfAbsent (key a) (dat a)).addEdge (es a) (ed a) rel) g).find id =
      keepOr (g.find id) ((l.find? (fun a => key a == id)).map dat) := by
  intro l
  induction l with
  | nil =>
    intro g id
    simp only [List.foldl_nil, List.find?_nil, Option.map_none']
    cases g.find id <;> rfl
  | cons a l ih =>
    intro g id
    simp only [List.foldl_cons, List.find?_cons]
    rw [ih, Graph.find_addEdge, Graph.find_insertIfAbsent]
    by_cases hk : (g.find (key a)).isSome
    · rw [if_pos hk]
      rcases hf : g.find id with _ | d
      · have hne : (key a == id) = false := by
          simp only [beq_eq_false_iff_ne, ne_eq]
          intro he
          rw [he, hf] at hk
          simp at hk
        rw [hne]
      · cases key a == id <;> rfl
    · rw [if_neg hk]
      by_cases hik : id = key a
      · have hf : g.find id = none := by
          cases hfi : g.find id
          · rfl
          · rw [← hik, hfi] at hk
            simp at hk
        have hb : (key a == id) = true := by
          simp [hik]
        rw [if_pos hik, hf, hb]
        rfl
      · have hb : (key a == id) = false := by
          simp only [beq_eq_false_iff_ne, ne_eq]
          exact fun he => hik he.symm
        rw [if_neg hik, hb]

section Builder

variable (canon : String → String) (classify : String → List String)

/-- The visual-entity loop skips short raw SMILES, so it equals the
unguarded loop over the plausible entries. -/
lemma foldl_molStep_filter (rid : String) :
    ∀ (l : List String) (g : Graph),
    l.foldl (molStep canon classify rid) g =
      (l.filter (fun raw => !(decide (raw.length < 10)))).foldl
        (fun g raw =>
          (g.insertIfAbsent (molKeyOf canon raw) (molDataOf canon classify raw)).addEdge
            (molKeyOf canon raw) rid "PARTICIPANT_IN") g := by
  intro l
  induction l with
  | nil => intro g; rfl
  | cons a l ih =>
    intro g
    simp only [List.foldl_cons, List.filter_cons]
    by_cases ha : a.length < 10
    · rw [molStep, if_pos ha]
      simp only [ha, decide_True, Bool.not_true, Bool.false_eq_true, if_neg]
      exact ih g
    · rw [molStep, if_neg ha]
      simp only [ha, decide_False, Bool.not_false, if_pos]
      rw [List.foldl_cons]
      exact ih _

lemma find_foldl_molStep (rid : String) (l : List String) (g : Graph) (id : String) :
    (l.foldl (molStep canon classify rid) g).find id =
      keepOr (g.find id)
        (((l.filter (fun raw => !(decide (raw.length < 10)))).find?
            (fun raw => molKeyOf canon raw == id)).map (molDataOf canon classify)) := by
  rw [foldl_molStep_filter]
  exact find_foldl_ins (molKeyOf canon) (molDataOf canon classify) (molKeyOf canon)
    (fun _ => rid) "PARTICIPANT_IN" _ g id

lemma find_foldl_pepStep (rid : String) (l : List String) (g : Graph) (id : String) :
    (l.foldl (pepStep rid) g).find id =
      keepOr (g.find id)
        ((l.find? (fun a => ("PEP_" ++ a) == id)).map
          (fun pep => (⟨"Peptide", pep, none, none⟩ : NodeData))) :=
  find_foldl_ins (fun a => "PEP_" ++ a) (fun pep => ⟨"Peptide", pep, none, none⟩)
    (fun a => "PEP_" ++ a) (fun _ => rid) "CATALYZES" l g id

lemma find_foldl_condStep (rid : String) (l : List String) (g : Graph) (id : String) :
    (l.foldl (condStep rid) g).find id =
      keepOr (g.find id)
        ((l.find? (fun a => ("COND_" ++ a) == id)).map
          (fun c => (⟨"Condition", c, none, none⟩ : NodeData))) :=
  find_foldl_ins (fun a => "COND_" ++ a) (fun c => ⟨"Condition", c, none, none⟩)
    (fun _ => rid) (fun a => "COND_" ++ a) "HAS_CONDITION" l g id

lemma find_foldl_chemStep (rid : String) (l : List String) (g : Graph) (id : String) :
    (l.foldl (chemStep rid) g).find id =
      keepOr (g.find id)
        ((l.find? (fun a => ("CHEM_" ++ a) == id)).map
          (fun c => (⟨"Chemical", c, none, none⟩ : NodeData))) :=
  find_foldl_ins (fun a => "CHEM_" ++ a) (fun c => ⟨"Chemical", c, none, none⟩)
    (fun a => "CHEM_" ++ a) (fun _ => rid) "INVOLVED_IN" l g id

end Builder

lemma Graph.edges_insertIfAbsent (g : Graph) (k : String) (d : NodeData) :
    (g.insertIfAbsent k d).edges = g.edges := by
  unfold Graph.insertIfAbsent
  split <;> rfl

lemma Graph.edges_setTypeLabel (g : Graph) (k ty lab : String) :
    (g.setTypeLabel k ty lab).edges = g.edges := by
  unfold Graph.setTypeLabel
  split <;> rfl

lemma Graph.edges_setLabel (g : Graph) (k lab : String) :
    (g.setLabel k lab).edges = g.edges := rfl

lemma Graph.edges_addEdge (g : Graph) (s t r : String) :
    (g.addEdge s t r).edges = g.edges ++ [⟨s, t, r⟩] := rfl

lemma edges_foldl_ins {α : Type} (key : α → String) (dat : α → NodeData)
    (es ed : α → String) (rel : String) :
    ∀ (l : List α) (g : Graph),
    (l.foldl (fun g a =>
        (g.insertIfAbsent (key a) (dat a)).addEdge (es a) (ed a) rel) g).edges =
      g.edges ++ l.map (fun a => ⟨es a, ed a, rel⟩) := by
  intro l
  induction l with
  | nil => intro g; simp
  | cons a l ih =>
    intro g
    simp only [List.foldl_cons, List.map_cons]
    rw [ih]
    show (((g.insertIfAbsent (key a) (dat a)).edges ++ _) ++ _) = _
    rw [Graph.edges_insertIfAbsent]
    simp

section Builder

variable (canon : String → String) (classify : String → List String)

lemma edges_foldl_molStep (rid : String) (l : List String) (g : Graph) :
    (l.foldl (molStep canon classify rid) g).edges =
      g.edges ++ (l.filter (fun raw => !(decide (raw.length < 10)))).map
        (fun raw => ⟨molKeyOf canon raw, rid, "PARTICIPANT_IN"⟩) := by
  rw [foldl_molStep_filter]
  exact edges_foldl_ins (molKeyOf canon) (molDataOf canon classify) (molKeyOf canon)
    (fun _ => rid) "PARTICIPANT_IN" _ g

lemma edges_foldl_pepStep (rid : String) (l : List String) (g : Graph) :
    (l.foldl (pepStep rid) g).edges =
      g.edges ++ l.map (fun a => ⟨"PEP_" ++ a, rid, "CATALYZES"⟩) :=
  edges_foldl_ins (fun a => "PEP_" ++ a) (fun pep => ⟨"Peptide", pep, none, none⟩)
    (fun a => "PEP_" ++ a) (fun _ => rid) "CATALYZES" l g

lemma edges_foldl_condStep (rid : String) (l : List String) (g : Graph) :
    (l.foldl (condStep rid) g).edges =
      g.edges ++ l.map (fun a => ⟨rid, "COND_" ++ a, "HAS_CONDITION"⟩) :=
  edges_foldl_ins (fun a => "COND_" ++ a) (fun c => ⟨"Condition", c, none, none⟩)
    (fun _ => rid) (fun a => "COND_" ++ a) "HAS_CONDITION" l g

lemma edges_foldl_chemStep (rid : String) (l : List String) (g : Graph) :
    (l.foldl (chemStep rid) g).edges =
      g.edges ++ l.map (fun a => ⟨"CHEM_" ++ a, rid, "INVOLVED_IN"⟩) :=
  edges_foldl_ins (fun a => "CHEM_" ++ a) (fun c => ⟨"Chemical", c, none, none⟩)
    (fun a => "CHEM_" ++ a) (fun _ => rid) "INVOLVED_IN" l g

/-- The edge list one document merge appends, a function of the record
alone (every endpoint id is computed from the record, never from the graph). -/
def docEdges (stem : String) (data : PaperJson) : List Edge :=
  let p := paperIdOf stem data
  let rid := "Reaction_" ++ p
  ⟨p, rid, "REPORTS"⟩ ::
    (((visRaws data).filter (fun raw => !(decide (raw.length < 10)))).map
        (fun raw => ⟨molKeyOf canon raw, rid, "PARTICIPANT_IN"⟩) ++
      ((pepsOf data).map (fun a => ⟨"PEP_" ++ a, rid, "CATALYZES"⟩) ++
        ((condsOf data).map (fun a => ⟨rid, "COND_" ++ a, "HAS_CONDITION"⟩) ++
          (chemsOf data).map (fun a => ⟨"CHEM_" ++ a, rid, "INVOLVED_IN"⟩))))

lemma edges_reaction_branch (g1 : Graph) (rid L : String) :
    (if g1.hasNode rid then
        (if L ≠ "Catalytic Process" then g1.setLabel rid L else g1)
      else g1.insertIfAbsent rid ⟨"Reaction", L, none, none⟩).edges = g1.edges := by
  split
  · split
    · rfl
    · rfl
  · exact Graph.edges_insertIfAbsent g1 rid _

/-- One document merge appends exactly `docEdges` to the edge multiset. -/
lemma edges_addPaper (g : Graph) (stem : String) (data : PaperJson) :
    (addPaperToGraph canon classify g stem data).edges = g.edges ++ docEdges canon stem data := by
  simp only [addPaperToGraph, docEdges]
  rw [edges_foldl_chemStep, edges_foldl_condStep, edges_foldl_pepStep, edges_foldl_molStep]
  rw [Graph.edges_addEdge]
  rw [edges_reaction_branch, Graph.edges_setTypeLabel]
  simp [List.append_assoc]

end Builder

section Builder

variable (canon : String → String) (classify : String → List String)

/-- The node data a single document merge gives an identifier that was NOT
yet in the graph (`none` when the merge does not create that node).  The
paper upsert runs first, then the reaction upsert, then the four entity
loops, whose key namespaces (`MOL_`, `PEP_`, `COND_`, `CHEM_`) are mutually
disjoint. -/
def freshData (stem : String) (data : PaperJson) (id : String) : Option NodeData :=
  if id = paperIdOf stem data then some ⟨"Paper", paperIdOf stem data, none, none⟩
  else if id = "Reaction_" ++ paperIdOf stem data then
    some ⟨"Reaction", rxnLabelOf data, none, none⟩
  else
    keepOr ((((visRaws data).filter (fun raw => !(decide (raw.length < 10)))).find?
        (fun raw => molKeyOf canon raw == id)).map (molDataOf canon classify))
      (keepOr (((pepsOf data).find? (fun a => ("PEP_" ++ a) == id)).map
          (fun pep => (⟨"Peptide", pep, none, none⟩ : NodeData)))
        (keepOr (((condsOf data).find? (fun a => ("COND_" ++ a) == id)).map
            (fun c => (⟨"Condition", c, none, none⟩ : NodeData)))
          (((chemsOf data).find? (fun a => ("CHEM_" ++ a) == id)).map
            (fun c => (⟨"Chemical", c, none, none⟩ : NodeData)))))

/-- How a single document merge rewrites the attributes of a node that WAS
already in the graph: the paper upsert overwrites `type`/`label` of the
paper node, the refinement rule overwrites the reaction node's label when
the computed label is not the generic fallback, and every other node is
untouched (the guarded inserts never touch an existing node). -/
def presentUpdate (stem : String) (data : PaperJson) (id : String) (old : NodeData) : NodeData :=
  if id = paperIdOf stem data then
    ⟨"Paper", paperIdOf stem data, old.smiles, old.reactivity_class⟩
  else if id = "Reaction_" ++ paperIdOf stem data ∧ rxnLabelOf data ≠ "Catalytic Process" then
    ⟨old.type_, rxnLabelOf data, old.smiles, old.reactivity_class⟩
  else old

lemma find_reaction_branch (g1 : Graph) (rid L id : String) :
    (if g1.hasNode rid then (if L ≠ "Catalytic Process" then g1.setLabel rid L else g1)
     else g1.insertIfAbsent rid ⟨"Reaction", L, none, none⟩).find id =
      if (g1.find rid).isSome then
        (if id = rid ∧ L ≠ "Catalytic Process" then
          (g1.find id).map (fun d => ⟨d.type_, L, d.smiles, d.reactivity_class⟩)
         else g1.find id)
      else (if id = rid then some ⟨"Reaction", L, none, none⟩ else g1.find id) := by
  unfold Graph.hasNode
  by_cases hR : (g1.find rid).isSome
  · rw [if_pos hR, if_pos hR]
    by_cases hL : L ≠ "Catalytic Process"
    · rw [if_pos hL, Graph.find_setLabel]
      by_cases hir : id = rid
      · rw [if_pos hir, if_pos ⟨hir, hL⟩]
      · rw [if_neg hir, if_neg (fun h => hir h.1)]
    · rw [if_neg hL]
      have h2 : ¬ (id = rid ∧ L ≠ "Catalytic Process") := fun h => hL h.2
      rw [if_neg h2]
  · rw [if_neg hR, if_neg hR, Graph.find_insertIfAbsent, if_neg hR]

/-- Pointwise description of one whole document merge: an existing node's
attributes are rewritten by `presentUpdate`, an absent identifier receives
`freshData`. -/
lemma find_addPaper (g : Graph) (stem : String) (data : PaperJson) (id : String) :
    (addPaperToGraph canon classify g stem data).find id =
      match g.find id with
      | some old => some (presentUpdate stem data id old)
      | none => freshData canon classify stem data id := by
  have hpr : ¬ paperIdOf stem data = "Reaction_" ++ paperIdOf stem data :=
    String.ne_append_self "Reaction_" (paperIdOf stem data) (by decide)
  simp only [addPaperToGraph]
  rw [find_foldl_chemStep, find_foldl_condStep, find_foldl_pepStep, find_foldl_molStep,
    Graph.find_addEdge, keepOr_assoc, keepOr_assoc, keepOr_assoc]
  rw [find_reaction_branch]
  have h1rid : (g.setTypeLabel (paperIdOf stem data) "Paper" (paperIdOf stem data)).find
      ("Reaction_" ++ paperIdOf stem data) = g.find ("Reaction_" ++ paperIdOf stem data) := by
    have h2 : ¬ ("Reaction_" ++ paperIdOf stem data) = paperIdOf stem data :=
      fun h => hpr h.symm
    rw [Graph.find_setTypeLabel]
    simp [h2]
  rw [h1rid]
  have hip2 : ¬ ("Reaction_" ++ paperIdOf stem data) = paperIdOf stem data :=
    fun h => hpr h.symm
  by_cases hip : id = paperIdOf stem data
  · rw [hip]
    have hirF2 : ¬ (paperIdOf stem data = "Reaction_" ++ paperIdOf stem data ∧
        rxnLabelOf data ≠ "Catalytic Process") := fun h => hpr h.1
    rw [if_neg hirF2, if_neg hpr, ite_self]
    rw [Graph.find_setTypeLabel, if_pos rfl, if_pos rfl]
    rcases hgp : g.find (paperIdOf stem data) with _ | old
    · simp [freshData]
    · simp [presentUpdate]
  · by_cases hir : id = "Reaction_" ++ paperIdOf stem data
    · rw [hir, h1rid]
      rcases hgr : g.find ("Reaction_" ++ paperIdOf stem data) with _ | old
      · simp [freshData, hip2]
      · by_cases hL : rxnLabelOf data ≠ "Catalytic Process"
        · simp [presentUpdate, hip2, hL]
        · have hLL : rxnLabelOf data = "Catalytic Process" := not_not.mp hL
          simp [presentUpdate, hip2, hLL]
    · have h1id : (g.setTypeLabel (paperIdOf stem data) "Paper" (paperIdOf stem data)).find id
          = g.find id := by
        rw [Graph.find_setTypeLabel]
        simp [hip]
      rw [h1id]
      have hcond : ¬ (id = "Reaction_" ++ paperIdOf stem data ∧
          rxnLabelOf data ≠ "Catalytic Process") := fun h => hir h.1
      rw [if_neg hcond, if_neg hir, ite_self]
      rcases hgid : g.find id with _ | old
      · simp [freshData, hip, hir]
      · simp [presentUpdate, hip, hcond]

end Builder

/-! ### Inversion helpers -/

lemma keepOr_eq_some (a b : Option NodeData) (x : NodeData) (h : keepOr a b = some x) :
    a = some x ∨ (a = none ∧ b = some x) := by
  cases a with
  | none => exact Or.inr ⟨rfl, h⟩
  | some y => exact Or.inl h

section Builder

variable (canon : String → String) (classify : String → List String)

/-- Full inversion of `freshData`: which identifiers one document merge can
freshly create, and with which attributes. -/
lemma freshData_eq_some (stem : String) (data : PaperJson) (id : String) (nd : NodeData)
    (h : freshData canon classify stem data id = some nd) :
    (id = paperIdOf stem data ∧ nd = ⟨"Paper", paperIdOf stem data, none, none⟩) ∨
    (id = "Reaction_" ++ paperIdOf stem data ∧
      nd = ⟨"Reaction", rxnLabelOf data, none, none⟩) ∨
    (id ≠ paperIdOf stem data ∧ id ≠ "Reaction_" ++ paperIdOf stem data ∧
      ((∃ raw ∈ (visRaws data).filter (fun raw => !(decide (raw.length < 10))),
          id = molKeyOf canon raw ∧ nd = molDataOf canon classify raw) ∨
       (∃ pep ∈ pepsOf data, id = "PEP_" ++ pep ∧ nd = ⟨"Peptide", pep, none, none⟩) ∨
       (∃ c ∈ condsOf data, id = "COND_" ++ c ∧ nd = ⟨"Condition", c, none, none⟩) ∨
       (∃ c ∈ chemsOf data, id = "CHEM_" ++ c ∧ nd = ⟨"Chemical", c, none, none⟩))) := by
  unfold freshData at h
  by_cases hip : id = paperIdOf stem data
  · rw [if_pos hip] at h
    exact Or.inl ⟨hip, (Option.some_inj.mp h).symm⟩
  · rw [if_neg hip] at h
    by_cases hir : id = "Reaction_" ++ paperIdOf stem data
    · rw [if_pos hir] at h
      exact Or.inr (Or.inl ⟨hir, (Option.some_inj.mp h).symm⟩)
    · rw [if_neg hir] at h
      refine Or.inr (Or.inr ⟨hip, hir, ?_⟩)
      rcases keepOr_eq_some _ _ _ h with hmol | ⟨_, h⟩
      · rcases Option.map_eq_some'.mp hmol with ⟨raw, hfind, hnd⟩
        have hb := List.find?_some hfind
        exact Or.inl ⟨raw, List.mem_of_find?_eq_some hfind, (eq_of_beq hb).symm, hnd.symm⟩
      · rcases keepOr_eq_some _ _ _ h with hpep | ⟨_, h⟩
        · rcases Option.map_eq_some'.mp hpep with ⟨pep, hfind, hnd⟩
          have hb := List.find?_some hfind
          exact Or.inr (Or.inl ⟨pep, List.mem_of_find?_eq_some hfind,
            (eq_of_beq hb).symm, hnd.symm⟩)
        · rcases keepOr_eq_some _ _ _ h with hcond | ⟨_, h⟩
          · rcases Option.map_eq_some'.mp hcond with ⟨c, hfind, hnd⟩
            have hb := List.find?_some hfind
            exact Or.inr (Or.inr (Or.inl ⟨c, List.mem_of_find?_eq_some hfind,
              (eq_of_beq hb).symm, hnd.symm⟩))
          · rcases Option.map_eq_some'.mp h with ⟨c, hfind, hnd⟩
            have hb := List.find?_some hfind
            exact Or.inr (Or.inr (Or.inr ⟨c, List.mem_of_find?_eq_some hfind,
              (eq_of_beq hb).symm, hnd.symm⟩))

end Builder

/-! ### Identifier namespace disjointness -/

lemma mol_key_ne_pep (a b : String) : "MOL_" ++ a ≠ "PEP_" ++ b :=
  String.append_ne_append_of_take4 "MOL_" "PEP_" (by decide) (by decide) (by decide) a b

lemma mol_key_ne_cond (a b : String) : "MOL_" ++ a ≠ "COND_" ++ b :=
  String.append_ne_append_of_take4 "MOL_" "COND_" (by decide) (by decide) (by decide) a b

lemma mol_key_ne_chem (a b : String) : "MOL_" ++ a ≠ "CHEM_" ++ b :=
  String.append_ne_append_of_take4 "MOL_" "CHEM_" (by decide) (by decide) (by decide) a b

lemma pep_key_ne_cond (a b : String) : "PEP_" ++ a ≠ "COND_" ++ b :=
  String.append_ne_append_of_take4 "PEP_" "COND_" (by decide) (by decide) (by decide) a b

lemma pep_key_ne_chem (a b : String) : "PEP_" ++ a ≠ "CHEM_" ++ b :=
  String.append_ne_append_of_take4 "PEP_" "CHEM_" (by decide) (by decide) (by decide) a b

lemma cond_key_ne_chem (a b : String) : "COND_" ++ a ≠ "CHEM_" ++ b :=
  String.append_ne_append_of_take4 "COND_" "CHEM_" (by decide) (by decide) (by decide) a b

lemma reaction_key_ne_mol (a b : String) : "Reaction_" ++ a ≠ "MOL_" ++ b :=
  String.append_ne_append_of_take4 "Reaction_" "MOL_" (by decide) (by decide) (by decide) a b

lemma reaction_key_ne_pep (a b : String) : "Reaction_" ++ a ≠ "PEP_" ++ b :=
  String.append_ne_append_of_take4 "Reaction_" "PEP_" (by decide) (by decide) (by decide) a b

lemma reaction_key_ne_cond (a b : String) : "Reaction_" ++ a ≠ "COND_" ++ b :=
  String.append_ne_append_of_take4 "Reaction_" "COND_" (by decide) (by decide) (by decide) a b

lemma reaction_key_ne_chem (a b : String) : "Reaction_" ++ a ≠ "CHEM_" ++ b :=
  String.append_ne_append_of_take4 "Reaction_" "CHEM_" (by decide) (by decide) (by decide) a b

lemma reaction_key_ne_CP (a : String) : "Reaction_" ++ a ≠ "Catalytic Process" := by
  have h := String.append_ne_append_of_take4 "Reaction_" "Cata" (by decide) (by decide)
    (by decide) a "lytic Process"
  intro hc
  exact h (hc.trans (by decide))

lemma reaction_key_inj (a b : String) (h : "Reaction_" ++ a = "Reaction_" ++ b) : a = b :=
  (String.append_eq_append_iff "Reaction_" a b).mp h

lemma mol_key_inj (a b : String) (h : "MOL_" ++ a = "MOL_" ++ b) : a = b :=
  (String.append_eq_append_iff "MOL_" a b).mp h

/-! ### Shape invariant of reachable graphs -/

/-- In every graph the builder can construct, a node currently typed
`Reaction` is keyed `"Reaction_" + paperId` and a node typed `Molecule` is
keyed `"MOL_" + canonicalSmiles`. -/
def ShapeInv (g : Graph) : Prop :=
  ∀ id nd, g.find id = some nd →
    (nd.type_ = "Reaction" → ∃ s, id = "Reaction_" ++ s) ∧
    (nd.type_ = "Molecule" → ∃ s, id = "MOL_" ++ s)

lemma shapeInv_empty : ShapeInv Graph.empty := by
  intro id nd h
  simp [Graph.empty, Graph.find] at h

section Builder

variable (canon : String → String) (classify : String → List String)

lemma shapeInv_addPaper (g : Graph) (stem : String) (data : PaperJson)
    (hg : ShapeInv g) : ShapeInv (addPaperToGraph canon classify g stem data) := by
  intro id nd h
  rw [find_addPaper] at h
  rcases hgid : g.find id with _ | old
  · rw [hgid] at h
    rcases freshData_eq_some canon classify stem data id nd h with
      ⟨hid, hnd⟩ | ⟨hid, hnd⟩ |
      ⟨_, _, ⟨raw, _, hid, hnd⟩ | ⟨pep, _, hid, hnd⟩ | ⟨c, _, hid, hnd⟩ | ⟨c, _, hid, hnd⟩⟩
    · subst hnd
      exact ⟨fun ht => absurd ht (by simp [molDataOf]), fun ht => absurd ht (by simp [molDataOf])⟩
    · subst hnd
      exact ⟨fun _ => ⟨paperIdOf stem data, hid⟩, fun ht => absurd ht (by simp [molDataOf])⟩
    · subst hnd
      exact ⟨fun ht => absurd ht (by simp [molDataOf]),
        fun _ => ⟨canon (firstFragment raw), hid⟩⟩
    · subst hnd
      exact ⟨fun ht => absurd ht (by simp [molDataOf]), fun ht => absurd ht (by simp [molDataOf])⟩
    · subst hnd
      exact ⟨fun ht => absurd ht (by simp [molDataOf]), fun ht => absurd ht (by simp [molDataOf])⟩
    · subst hnd
      exact ⟨fun ht => absurd ht (by simp [molDataOf]), fun ht => absurd ht (by simp [molDataOf])⟩
  · rw [hgid] at h
    have hnd : nd = presentUpdate stem data id old := (Option.some_inj.mp h).symm
    subst hnd
    unfold presentUpdate
    by_cases hip : id = paperIdOf stem data
    · rw [if_pos hip]
      exact ⟨fun ht => absurd ht (by simp [molDataOf]), fun ht => absurd ht (by simp [molDataOf])⟩
    · rw [if_neg hip]
      by_cases hcond : id = "Reaction_" ++ paperIdOf stem data ∧
          rxnLabelOf data ≠ "Catalytic Process"
      · rw [if_pos hcond]
        exact ⟨fun ht => (hg id old hgid).1 ht, fun ht => (hg id old hgid).2 ht⟩
      · rw [if_neg hcond]
        exact hg id old hgid

lemma reachable_shapeInv (g : Graph) (h : Reachable canon classify g) : ShapeInv g := by
  rcases h with ⟨docs, rfl⟩
  have key : ∀ (docs : List (String × PaperJson)) (g0 : Graph), ShapeInv g0 →
      ShapeInv (mergeDocs canon classify g0 docs) := by
    intro docs
    induction docs with
    | nil => intro g0 h0; exact h0
    | cons d docs ih =>
      intro g0 h0
      exact ih _ (shapeInv_addPaper canon classify g0 d.1 d.2 h0)
  exact key docs Graph.empty shapeInv_empty

end Builder

/-! ## Claims -/

/-- Claim C5: for every input string, `canonicalize` terminates normally —
it is a total function whose result is fully characterized below, the
`try/except` swallowing any parser error — and whenever the string cannot
be parsed as a molecular structure (`MolFromSmiles` returns `none`) it
returns the input string unchanged. -/
theorem C5_canonicalize_total_and_fallback (μ : Type) (MolFromSmiles : String → Option μ)
    (MolToSmiles : μ → String) (s : String) :
    (MolFromSmiles s = none → canonicalize MolFromSmiles MolToSmiles s = s) ∧
    (∀ m, MolFromSmiles s = some m →
      canonicalize MolFromSmiles MolToSmiles s = MolToSmiles m) := by
  constructor
  · intro h
    unfold canonicalize
    rw [h]
  · intro m h
    unfold canonicalize
    rw [h]

/-- Witness for C5: a parser that rejects `"not-a-smiles"` makes
`canonicalize` return it unchanged. -/
theorem C5_canonicalize_total_and_fallback_witness :
    canonicalize (fun s => if s = "CCO" then some 0 else none) (fun _ : Nat => "CCO")
      "not-a-smiles" = "not-a-smiles" :=
  (C5_canonicalize_total_and_fallback Nat (fun s => if s = "CCO" then some 0 else none)
    (fun _ : Nat => "CCO") "not-a-smiles").1 (by decide)

/-- Modelled from the spec: RDKit's canonical SMILES writer is external to
the repository; §4.1 specifies that serialization produces a normalized form
such that chemically identical structures (in particular, a molecule and the
parse of its own canonical serialization) canonicalize to byte-identical
strings.  This predicate captures exactly that contract for the abstract
parse/serialize pair. -/
def CanonicalSerializer {μ : Type} (MolFromSmiles : String → Option μ)
    (MolToSmiles : μ → String) : Prop :=
  ∀ m : μ, ∃ m', MolFromSmiles (MolToSmiles m) = some m' ∧ MolToSmiles m' = MolToSmiles m

/-- Claim C6: canonicalization idempotence — for every string `x` that
parses successfully, `canonicalize (canonicalize x) = canonicalize x`,
assuming the external serializer satisfies the §4.1 canonical-form contract
(`CanonicalSerializer`). -/
theorem C6_canonicalize_idempotent (μ : Type) (MolFromSmiles : String → Option μ)
    (MolToSmiles : μ → String) (hc : CanonicalSerializer MolFromSmiles MolToSmiles)
    (x : String) (m : μ) (hx : MolFromSmiles x = some m) :
    canonicalize MolFromSmiles MolToSmiles (canonicalize MolFromSmiles MolToSmiles x) =
      canonicalize MolFromSmiles MolToSmiles x := by
  have h1 : canonicalize MolFromSmiles MolToSmiles x = MolToSmiles m := by
    unfold canonicalize
    rw [hx]
  rw [h1]
  rcases hc m with ⟨m', hp, hs⟩
  unfold canonicalize
  rw [hp]
  exact hs

/-- Witness for C6: a two-string language where `"CC(O)"` parses and
serializes to the canonical `"CCO"`, which re-parses to itself. -/
theorem C6_canonicalize_idempotent_witness :
    canonicalize (fun s => if s = "CCO" ∨ s = "CC(O)" then some () else none) (fun _ => "CCO")
      (canonicalize (fun s => if s = "CCO" ∨ s = "CC(O)" then some () else none)
        (fun _ => "CCO") "CC(O)") =
      canonicalize (fun s => if s = "CCO" ∨ s = "CC(O)" then some () else none)
        (fun _ => "CCO") "CC(O)" :=
  C6_canonicalize_idempotent Unit (fun s => if s = "CCO" ∨ s = "CC(O)" then some () else none)
    (fun _ => "CCO") (fun m => by cases m; exact ⟨(), by decide, rfl⟩) "CC(O)" () (by decide)

/-- The Boolean test "this SMARTS pattern compiles and matches the
molecule", as evaluated inside the classifier's loop. -/
def patternFires {μ ν : Type} (MolFromSmarts : String → Option ν)
    (HasSubstructMatch : μ → ν → Bool) (mol : μ) (pr : String × String) : Bool :=
  match MolFromSmarts pr.2 with
  | some pattern => HasSubstructMatch mol pattern
  | none => false

lemma classify_step_eq {μ ν : Type} (MolFromSmarts : String → Option ν)
    (HasSubstructMatch : μ → ν → Bool) (mol : μ) (acc : List String)
    (pr : String × String) :
    (match MolFromSmarts pr.2 with
      | some pattern => if HasSubstructMatch mol pattern then acc ++ [pr.1] else acc
      | none => acc) =
      if patternFires MolFromSmarts HasSubstructMatch mol pr then acc ++ [pr.1] else acc := by
  unfold patternFires
  rcases h : MolFromSmarts pr.2 with _ | pattern
  · simp
  · simp

lemma classify_foldl_acc {μ ν : Type} (MolFromSmarts : String → Option ν)
    (HasSubstructMatch : μ → ν → Bool) (mol : μ) :
    ∀ (pats : List (String × String)) (acc : List String),
    pats.foldl (fun tags pr =>
      match MolFromSmarts pr.2 with
      | some pattern => if HasSubstructMatch mol pattern then tags ++ [pr.1] else tags
      | none => tags) acc =
      acc ++ (pats.filter (patternFires MolFromSmarts HasSubstructMatch mol)).map Prod.fst := by
  intro pats
  induction pats with
  | nil => intro acc; simp
  | cons pr pats ih =>
    intro acc
    rw [List.foldl_cons, List.filter_cons]
    rw [classify_step_eq MolFromSmarts HasSubstructMatch mol acc pr]
    by_cases hfire : patternFires MolFromSmarts HasSubstructMatch mol pr = true
    · rw [if_pos hfire, if_pos hfire, ih (acc ++ [pr.1])]
      simp
    · rw [if_neg hfire, if_neg hfire]
      exact ih acc

/-- Claim C7: `classify_molecule_reactivity` returns the empty tag list when
the string cannot be parsed; otherwise it returns exactly the labels of the
library patterns that fire, in the library's fixed declared order.  Each
pattern is tested independently (`patternFires` mentions only its own
SMARTS), so a specific contextual tag and its generic fallback both appear
whenever both patterns match — no tag is ever suppressed by another. -/
theorem C7_classify_exact_matching_subset (μ ν : Type) (MolFromSmiles : String → Option μ)
    (MolFromSmarts : String → Option ν) (HasSubstructMatch : μ → ν → Bool) (s : String) :
    (MolFromSmiles s = none →
      classify_molecule_reactivity MolFromSmiles MolFromSmarts HasSubstructMatch s = []) ∧
    (∀ mol, MolFromSmiles s = some mol →
      classify_molecule_reactivity MolFromSmiles MolFromSmarts HasSubstructMatch s =
        (patternLibrary.filter (patternFires MolFromSmarts HasSubstructMatch mol)).map
          Prod.fst) := by
  constructor
  · intro h
    unfold classify_molecule_reactivity
    rw [h]
  · intro mol h
    unfold classify_molecule_reactivity
    rw [h]
    exact (classify_foldl_acc MolFromSmarts HasSubstructMatch mol patternLibrary []).trans
      (by simp)

/-- Witness for C7: with a matcher that fires on every pattern, the
classifier returns all twelve labels in declared order; in particular the
specific "Alpha-Diazo-Ester" and its generic fallback "Diazo-Group" co-fire. -/
theorem C7_classify_exact_matching_subset_witness :
    classify_molecule_reactivity (fun _ : String => some 0) (fun _ : String => some 0)
      (fun _ _ : Nat => true) "x" =
      ["Alpha-Diazo-Ester", "Alpha-Diazo-Ketone", "Aryl-Diazo", "Diazo-Group",
       "Styrene-Like", "Michael-Acceptor", "Isolated-Alkene", "Aryl-Amine",
       "Alkyl-Amine", "Amide", "Epoxide/Aziridine/Cyclopropane", "Heme-Like-Core"] :=
  ((C7_classify_exact_matching_subset Nat Nat (fun _ => some 0) (fun _ => some 0)
    (fun _ _ => true) "x").2 0 rfl).trans (by decide)

/-! ### Concrete chemistry instances for concrete examples

RDKit's canonical form of an already-canonical linear-alkane SMILES such as
`"CCCCCCCCCC"` is the string itself, and such molecules match none of the
SMARTS patterns that require nitrogen, double bonds or rings; the identity
canonicalizer and the empty classifier instantiate the abstract hooks
accordingly for the concrete counterexamples and witnesses below. -/

def canonId : String → String := fun s => s

def classifyNone : String → List String := fun _ => []

/-- Claim C2, counterexample: `process_batch` has no `try/except` around
`_add_paper_to_graph`, whose `open(json_path)` / `json.load(f)` raise on an
unreadable or unparseable file.  A batch holding one unreadable record
(`none`) followed by a well-formed record aborts (flag `true`) and the later
record's `Paper` node is never merged — the claim promised no abort and all
other records merged. -/
theorem C2_batch_abort_counterexample :
    (process_batch canonId classifyNone Graph.empty
        [("bad", none), ("good", some ⟨some "P1", none, none⟩)]).2 = true ∧
    (process_batch canonId classifyNone Graph.empty
        [("bad", none), ("good", some ⟨some "P1", none, none⟩)]).1.find "P1" = none := by
  exact ⟨rfl, rfl⟩

/-- Claim C2 (amended): a readable record can never abort the batch —
missing fields are replaced by `dict.get` defaults, so a batch of readable
records always completes with every record merged in order; but a record
whose file cannot be read or parsed raises out of `process_batch`: records
merged before it are left intact in the graph and records after it are never
processed. -/
theorem C2_batch_error_isolation_amended (canon : String → String)
    (classify : String → List String) :
    (∀ (g : Graph) (rs : List (String × PaperJson)),
      process_batch canon classify g (rs.map (fun r => (r.1, some r.2))) =
        (mergeDocs canon classify g rs, false)) ∧
    (∀ (g : Graph) (rs : List (String × PaperJson)) (badStem : String)
        (rest : List (String × Option PaperJson)),
      process_batch canon classify g
          (rs.map (fun r => (r.1, some r.2)) ++ (badStem, none) :: rest) =
        (mergeDocs canon classify g rs, true)) := by
  constructor
  · intro g rs
    induction rs generalizing g with
    | nil => rfl
    | cons r rs ih =>
      simp only [List.map_cons, process_batch, mergeDocs, List.foldl_cons]
      exact ih _
  · intro g rs badStem rest
    induction rs generalizing g with
    | nil => rfl
    | cons r rs ih =>
      simp only [List.map_cons, List.cons_append, process_batch, mergeDocs, List.foldl_cons]
      exact ih _

section Builder

variable (canon : String → String) (classify : String → List String)

lemma freshData_paper (stem : String) (data : PaperJson) :
    freshData canon classify stem data (paperIdOf stem data) =
      some ⟨"Paper", paperIdOf stem data, none, none⟩ := by
  unfold freshData
  rw [if_pos rfl]

lemma freshData_reaction (stem : String) (data : PaperJson) :
    freshData canon classify stem data ("Reaction_" ++ paperIdOf stem data) =
      some ⟨"Reaction", rxnLabelOf data, none, none⟩ := by
  unfold freshData
  have h2 : ¬ ("Reaction_" ++ paperIdOf stem data) = paperIdOf stem data := fun h =>
    String.ne_append_self "Reaction_" (paperIdOf stem data) (by decide) h.symm
  rw [if_neg h2, if_pos rfl]

lemma presentUpdate_other (stem : String) (data : PaperJson) (id : String) (old : NodeData)
    (hip : id ≠ paperIdOf stem data) (hir : id ≠ "Reaction_" ++ paperIdOf stem data) :
    presentUpdate stem data id old = old := by
  unfold presentUpdate
  rw [if_neg hip, if_neg (fun h => hir h.1)]

lemma presentUpdate_paper (stem : String) (data : PaperJson) (old : NodeData) :
    presentUpdate stem data (paperIdOf stem data) old =
      ⟨"Paper", paperIdOf stem data, old.smiles, old.reactivity_class⟩ := by
  unfold presentUpdate
  rw [if_pos rfl]

lemma presentUpdate_reaction (stem : String) (data : PaperJson) (old : NodeData) :
    presentUpdate stem data ("Reaction_" ++ paperIdOf stem data) old =
      if rxnLabelOf data ≠ "Catalytic Process" then
        ⟨old.type_, rxnLabelOf data, old.smiles, old.reactivity_class⟩
      else old := by
  unfold presentUpdate
  have h2 : ¬ ("Reaction_" ++ paperIdOf stem data) = paperIdOf stem data := fun h =>
    String.ne_append_self "Reaction_" (paperIdOf stem data) (by decide) h.symm
  rw [if_neg h2]
  by_cases hL : rxnLabelOf data ≠ "Catalytic Process"
  · rw [if_pos ⟨rfl, hL⟩, if_pos hL]
  · rw [if_neg (fun h => hL h.2), if_neg hL]

lemma molDataOf_congr (raw1 raw2 : String)
    (h : canon (firstFragment raw1) = canon (firstFragment raw2)) :
    molDataOf canon classify raw1 = molDataOf canon classify raw2 := by
  unfold molDataOf
  rw [h]

/-- Two different records agree on the data of any bucket node they both
freshly create: the attributes of a `Molecule` / `Peptide` / `Condition` /
`Chemical` node are a function of its identifier (given the fixed `canon`
and `classify`), and the four key namespaces are disjoint. -/
lemma freshData_bucket_agree (s1 : String) (j1 : PaperJson) (s2 : String) (j2 : PaperJson)
    (id : String) (a b : NodeData)
    (h1 : freshData canon classify s1 j1 id = some a)
    (h2 : freshData canon classify s2 j2 id = some b)
    (hp1 : id ≠ paperIdOf s1 j1) (hr1 : id ≠ "Reaction_" ++ paperIdOf s1 j1)
    (hp2 : id ≠ paperIdOf s2 j2) (hr2 : id ≠ "Reaction_" ++ paperIdOf s2 j2) :
    a = b := by
  rcases freshData_eq_some canon classify s1 j1 id a h1 with
    ⟨hid, _⟩ | ⟨hid, _⟩ |
    ⟨_, _, ⟨r1, _, hid1, ha⟩ | ⟨x1, _, hid1, ha⟩ | ⟨x1, _, hid1, ha⟩ | ⟨x1, _, hid1, ha⟩⟩
  · exact absurd hid hp1
  · exact absurd hid hr1
  all_goals
    rcases freshData_eq_some canon classify s2 j2 id b h2 with
      ⟨hid, _⟩ | ⟨hid, _⟩ |
      ⟨_, _, ⟨r2, _, hid2, hb⟩ | ⟨x2, _, hid2, hb⟩ | ⟨x2, _, hid2, hb⟩ | ⟨x2, _, hid2, hb⟩⟩
  · exact absurd hid hp2
  · exact absurd hid hr2
  · subst ha hb
    exact molDataOf_congr canon classify r1 r2
      (mol_key_inj _ _ ((hid1.symm.trans hid2)))
  · exact absurd (hid1.symm.trans hid2) (mol_key_ne_pep _ _)
  · exact absurd (hid1.symm.trans hid2) (mol_key_ne_cond _ _)
  · exact absurd (hid1.symm.trans hid2) (mol_key_ne_chem _ _)
  · exact absurd hid hp2
  · exact absurd hid hr2
  · exact absurd (hid2.symm.trans hid1) (mol_key_ne_pep _ _)
  · subst ha hb
    rw [(String.append_eq_append_iff "PEP_" x1 x2).mp (hid1.symm.trans hid2)]
  · exact absurd (hid1.symm.trans hid2) (pep_key_ne_cond _ _)
  · exact absurd (hid1.symm.trans hid2) (pep_key_ne_chem _ _)
  · exact absurd hid hp2
  · exact absurd hid hr2
  · exact absurd (hid2.symm.trans hid1) (mol_key_ne_cond _ _)
  · exact absurd (hid2.symm.trans hid1) (pep_key_ne_cond _ _)
  · subst ha hb
    rw [(String.append_eq_append_iff "COND_" x1 x2).mp (hid1.symm.trans hid2)]
  · exact absurd (hid1.symm.trans hid2) (cond_key_ne_chem _ _)
  · exact absurd hid hp2
  · exact absurd hid hr2
  · exact absurd (hid2.symm.trans hid1) (mol_key_ne_chem _ _)
  · exact absurd (hid2.symm.trans hid1) (pep_key_ne_chem _ _)
  · exact absurd (hid2.symm.trans hid1) (cond_key_ne_chem _ _)
  · subst ha hb
    rw [(String.append_eq_append_iff "CHEM_" x1 x2).mp (hid1.symm.trans hid2)]

end Builder

section Builder

variable (canon : String → String) (classify : String → List String)

lemma find_addPaper_empty (stem : String) (data : PaperJson) (id : String) :
    (addPaperToGraph canon classify Graph.empty stem data).find id =
      freshData canon classify stem data id := by
  rw [find_addPaper]
  rfl

/-- Merging two records into the empty graph, first `d1` then `d2`. -/
def mergeTwo (d1 d2 : String × PaperJson) : Graph :=
  addPaperToGraph canon classify
    (addPaperToGraph canon classify Graph.empty d1.1 d1.2) d2.1 d2.2

lemma mergeTwo_find (d1 d2 : String × PaperJson) (id : String) :
    (mergeTwo canon classify d1 d2).find id =
      match freshData canon classify d1.1 d1.2 id with
      | some old => some (presentUpdate d2.1 d2.2 id old)
      | none => freshData canon classify d2.1 d2.2 id := by
  unfold mergeTwo
  rw [find_addPaper, find_addPaper_empty]

/-- A record creates no node whose identifier lives in the `Reaction_`
namespace of a different paper. -/
lemma freshData_reaction_shape_none (stem : String) (data : PaperJson) (x : String)
    (hp : "Reaction_" ++ x ≠ paperIdOf stem data)
    (hr : "Reaction_" ++ x ≠ "Reaction_" ++ paperIdOf stem data) :
    freshData canon classify stem data ("Reaction_" ++ x) = none := by
  unfold freshData
  rw [if_neg hp, if_neg hr]
  have hm : (((visRaws data).filter (fun raw => !(decide (raw.length < 10)))).find?
      (fun raw => molKeyOf canon raw == "Reaction_" ++ x)) = none :=
    List.find?_eq_none.mpr (fun raw _ h =>
      reaction_key_ne_mol x (canon (firstFragment raw)) (eq_of_beq h).symm)
  have hpep : ((pepsOf data).find? (fun a => ("PEP_" ++ a) == "Reaction_" ++ x)) = none :=
    List.find?_eq_none.mpr (fun a _ h => reaction_key_ne_pep x a (eq_of_beq h).symm)
  have hcond : ((condsOf data).find? (fun a => ("COND_" ++ a) == "Reaction_" ++ x)) = none :=
    List.find?_eq_none.mpr (fun a _ h => reaction_key_ne_cond x a (eq_of_beq h).symm)
  have hchem : ((chemsOf data).find? (fun a => ("CHEM_" ++ a) == "Reaction_" ++ x)) = none :=
    List.find?_eq_none.mpr (fun a _ h => reaction_key_ne_chem x a (eq_of_beq h).symm)
  rw [hm, hpep, hcond, hchem]
  rfl

/-- The symmetric-merge goal for an identifier that is neither record's
paper or reaction key: both orders give the first creator's data, which the
two records agree on. -/
lemma mergeTwo_find_bucket_comm (d1 d2 : String × PaperJson) (id : String)
    (hp1 : id ≠ paperIdOf d1.1 d1.2) (hr1 : id ≠ "Reaction_" ++ paperIdOf d1.1 d1.2)
    (hp2 : id ≠ paperIdOf d2.1 d2.2) (hr2 : id ≠ "Reaction_" ++ paperIdOf d2.1 d2.2) :
    (mergeTwo canon classify d1 d2).find id = (mergeTwo canon classify d2 d1).find id := by
  rw [mergeTwo_find, mergeTwo_find]
  rcases hA : freshData canon classify d1.1 d1.2 id with _ | a
  · rcases hB : freshData canon classify d2.1 d2.2 id with _ | b
    · rfl
    · show some b = some (presentUpdate d1.1 d1.2 id b)
      rw [presentUpdate_other d1.1 d1.2 id b hp1 hr1]
  · rcases hB : freshData canon classify d2.1 d2.2 id with _ | b
    · show some (presentUpdate d2.1 d2.2 id a) = some a
      rw [presentUpdate_other d2.1 d2.2 id a hp2 hr2]
    · show some (presentUpdate d2.1 d2.2 id a) = some (presentUpdate d1.1 d1.2 id b)
      rw [presentUpdate_other d2.1 d2.2 id a hp2 hr2,
        presentUpdate_other d1.1 d1.2 id b hp1 hr1]
      rw [freshData_bucket_agree canon classify d1.1 d1.2 d2.1 d2.2 id a b hA hB
        hp1 hr1 hp2 hr2]

end Builder

/-- Claim C1, counterexample: two records with the same source identifier
`"P"` and different non-empty reaction-type buckets (`["A"]` vs `["B"]`).
The label-refinement rule overwrites any non-fallback label with the later
document's non-fallback label, so the shared `Reaction_P` node ends with
label `"B"` in one merge order and `"A"` in the other — the node attributes
are not identical, refuting the claim as stated. -/
theorem C1_merge_order_counterexample :
    ¬ ((mergeTwo canonId classifyNone ("s1", ⟨some "P", some ⟨none, none, none, some ["A"]⟩, none⟩)
          ("s2", ⟨some "P", some ⟨none, none, none, some ["B"]⟩, none⟩)).find "Reaction_P" =
       (mergeTwo canonId classifyNone ("s2", ⟨some "P", some ⟨none, none, none, some ["B"]⟩, none⟩)
          ("s1", ⟨some "P", some ⟨none, none, none, some ["A"]⟩, none⟩)).find "Reaction_P") := by
  decide

/-- Claim C1 (amended): merging two per-document records into an empty graph
in either order yields pointwise identical node maps (same node set, same
attributes, including Reaction labels) and edge multisets that are
permutations of each other, provided (i) WHEN the two records share a
reaction node (same source identifier), their computed reaction labels are
equal or at least one is the fallback "Catalytic Process" — with two
different specific labels the later document wins, as the counterexample
shows; records with distinct source identifiers need no label condition —
and (ii) neither record's
source identifier collides with a node key created by the other record
(records with distinct, non-degenerate source identifiers satisfy this
automatically; the identifier namespaces `MOL_`/`PEP_`/`COND_`/`CHEM_`/
`Reaction_` cannot collide with each other). -/
theorem C1_merge_order_independent_amended (canon : String → String)
    (classify : String → List String) (d1 d2 : String × PaperJson)
    (Hcoll : paperIdOf d1.1 d1.2 = paperIdOf d2.1 d2.2 ∨
      (freshData canon classify d2.1 d2.2 (paperIdOf d1.1 d1.2) = none ∧
       freshData canon classify d1.1 d1.2 (paperIdOf d2.1 d2.2) = none))
    (Hlab : paperIdOf d1.1 d1.2 = paperIdOf d2.1 d2.2 →
      (rxnLabelOf d1.2 = rxnLabelOf d2.2 ∨ rxnLabelOf d1.2 = "Catalytic Process" ∨
        rxnLabelOf d2.2 = "Catalytic Process")) :
    (∀ id, (mergeTwo canon classify d1 d2).find id =
      (mergeTwo canon classify d2 d1).find id) ∧
    (mergeTwo canon classify d1 d2).edges.Perm (mergeTwo canon classify d2 d1).edges := by
  constructor
  · intro id
    rcases Hcoll with hpp | ⟨hf1, hf2⟩
    · by_cases hip : id = paperIdOf d1.1 d1.2
      · rw [mergeTwo_find, mergeTwo_find, hip, freshData_paper]
        have hfr2 : freshData canon classify d2.1 d2.2 (paperIdOf d1.1 d1.2) =
            some ⟨"Paper", paperIdOf d1.1 d1.2, none, none⟩ := by
          rw [hpp]
          exact freshData_paper canon classify d2.1 d2.2
        rw [hfr2]
        show some (presentUpdate d2.1 d2.2 (paperIdOf d1.1 d1.2)
            ⟨"Paper", paperIdOf d1.1 d1.2, none, none⟩) =
          some (presentUpdate d1.1 d1.2 (paperIdOf d1.1 d1.2)
            ⟨"Paper", paperIdOf d1.1 d1.2, none, none⟩)
        have hpu2 : presentUpdate d2.1 d2.2 (paperIdOf d1.1 d1.2)
            (⟨"Paper", paperIdOf d1.1 d1.2, none, none⟩ : NodeData) =
            ⟨"Paper", paperIdOf d2.1 d2.2, none, none⟩ := by
          rw [hpp]
          exact presentUpdate_paper d2.1 d2.2 _
        rw [hpu2, presentUpdate_paper, hpp]
      · by_cases hir : id = "Reaction_" ++ paperIdOf d1.1 d1.2
        · rw [mergeTwo_find, mergeTwo_find, hir, freshData_reaction]
          have hrr : ("Reaction_" ++ paperIdOf d1.1 d1.2) =
              "Reaction_" ++ paperIdOf d2.1 d2.2 := by rw [hpp]
          have hfr2 : freshData canon classify d2.1 d2.2
              ("Reaction_" ++ paperIdOf d1.1 d1.2) =
              some ⟨"Reaction", rxnLabelOf d2.2, none, none⟩ := by
            rw [hrr]
            exact freshData_reaction canon classify d2.1 d2.2
          rw [hfr2]
          show some (presentUpdate d2.1 d2.2 ("Reaction_" ++ paperIdOf d1.1 d1.2)
              ⟨"Reaction", rxnLabelOf d1.2, none, none⟩) =
            some (presentUpdate d1.1 d1.2 ("Reaction_" ++ paperIdOf d1.1 d1.2)
              ⟨"Reaction", rxnLabelOf d2.2, none, none⟩)
          have hpu2 : presentUpdate d2.1 d2.2 ("Reaction_" ++ paperIdOf d1.1 d1.2)
              (⟨"Reaction", rxnLabelOf d1.2, none, none⟩ : NodeData) =
              if rxnLabelOf d2.2 ≠ "Catalytic Process" then
                ⟨"Reaction", rxnLabelOf d2.2, none, none⟩
              else ⟨"Reaction", rxnLabelOf d1.2, none, none⟩ := by
            rw [hrr]
            exact presentUpdate_reaction d2.1 d2.2 _
          have hpu1 : presentUpdate d1.1 d1.2 ("Reaction_" ++ paperIdOf d1.1 d1.2)
              (⟨"Reaction", rxnLabelOf d2.2, none, none⟩ : NodeData) =
              if rxnLabelOf d1.2 ≠ "Catalytic Process" then
                ⟨"Reaction", rxnLabelOf d1.2, none, none⟩
              else ⟨"Reaction", rxnLabelOf d2.2, none, none⟩ :=
            presentUpdate_reaction d1.1 d1.2 _
          rw [hpu2, hpu1]
          rcases Hlab hpp with heq | h1 | h2
          · rw [heq]
          · rw [h1]
            by_cases hL2 : rxnLabelOf d2.2 ≠ "Catalytic Process"
            · rw [if_pos hL2, if_neg (by simp)]
            · rw [if_neg hL2, if_neg (by simp), not_not.mp hL2]
          · rw [h2]
            by_cases hL1 : rxnLabelOf d1.2 ≠ "Catalytic Process"
            · rw [if_neg (by simp), if_pos hL1]
            · rw [if_neg (by simp), if_neg hL1, not_not.mp hL1]
        · have hip2 : id ≠ paperIdOf d2.1 d2.2 := by
            rw [← hpp]
            exact hip
          have hir2 : id ≠ "Reaction_" ++ paperIdOf d2.1 d2.2 := by
            rw [← hpp]
            exact hir
          exact mergeTwo_find_bucket_comm canon classify d1 d2 id hip hir hip2 hir2
    · have hne : paperIdOf d1.1 d1.2 ≠ paperIdOf d2.1 d2.2 := by
        intro h
        rw [h, freshData_paper] at hf1
        exact Option.noConfusion hf1
      have hp1r2 : paperIdOf d1.1 d1.2 ≠ "Reaction_" ++ paperIdOf d2.1 d2.2 := by
        intro h
        rw [h, freshData_reaction] at hf1
        exact Option.noConfusion hf1
      have hp2r1 : paperIdOf d2.1 d2.2 ≠ "Reaction_" ++ paperIdOf d1.1 d1.2 := by
        intro h
        rw [h, freshData_reaction] at hf2
        exact Option.noConfusion hf2
      have hrr : ("Reaction_" ++ paperIdOf d1.1 d1.2) ≠
          "Reaction_" ++ paperIdOf d2.1 d2.2 := fun h => hne (reaction_key_inj _ _ h)
      by_cases hip1 : id = paperIdOf d1.1 d1.2
      · rw [mergeTwo_find, mergeTwo_find, hip1, hf1, freshData_paper]
        show some (presentUpdate d2.1 d2.2 (paperIdOf d1.1 d1.2)
            ⟨"Paper", paperIdOf d1.1 d1.2, none, none⟩) =
          some (⟨"Paper", paperIdOf d1.1 d1.2, none, none⟩ : NodeData)
        rw [presentUpdate_other d2.1 d2.2 _ _ hne hp1r2]
      · by_cases hip2 : id = paperIdOf d2.1 d2.2
        · rw [mergeTwo_find, mergeTwo_find, hip2, hf2, freshData_paper]
          show some (⟨"Paper", paperIdOf d2.1 d2.2, none, none⟩ : NodeData) =
            some (presentUpdate d1.1 d1.2 (paperIdOf d2.1 d2.2)
              ⟨"Paper", paperIdOf d2.1 d2.2, none, none⟩)
          rw [presentUpdate_other d1.1 d1.2 _ _ (Ne.symm hne) hp2r1]
        · by_cases hir1 : id = "Reaction_" ++ paperIdOf d1.1 d1.2
          · have hn2 : freshData canon classify d2.1 d2.2
                ("Reaction_" ++ paperIdOf d1.1 d1.2) = none :=
              freshData_reaction_shape_none canon classify d2.1 d2.2 _
                (fun h => hp2r1 h.symm) hrr
            rw [mergeTwo_find, mergeTwo_find, hir1, hn2, freshData_reaction]
            show some (presentUpdate d2.1 d2.2 ("Reaction_" ++ paperIdOf d1.1 d1.2)
                ⟨"Reaction", rxnLabelOf d1.2, none, none⟩) =
              some (⟨"Reaction", rxnLabelOf d1.2, none, none⟩ : NodeData)
            rw [presentUpdate_other d2.1 d2.2 _ _ (fun h => hp2r1 h.symm) hrr]
          · by_cases hir2 : id = "Reaction_" ++ paperIdOf d2.1 d2.2
            · have hn1 : freshData canon classify d1.1 d1.2
                  ("Reaction_" ++ paperIdOf d2.1 d2.2) = none :=
                freshData_reaction_shape_none canon classify d1.1 d1.2 _
                  (fun h => hp1r2 h.symm) (Ne.symm hrr)
              rw [mergeTwo_find, mergeTwo_find, hir2, hn1, freshData_reaction]
              show some (⟨"Reaction", rxnLabelOf d2.2, none, none⟩ : NodeData) =
                some (presentUpdate d1.1 d1.2 ("Reaction_" ++ paperIdOf d2.1 d2.2)
                  ⟨"Reaction", rxnLabelOf d2.2, none, none⟩)
              rw [presentUpdate_other d1.1 d1.2 _ _ (fun h => hp1r2 h.symm) (Ne.symm hrr)]
            · exact mergeTwo_find_bucket_comm canon classify d1 d2 id hip1 hir1 hip2 hir2
  · unfold mergeTwo
    rw [edges_addPaper, edges_addPaper, edges_addPaper, edges_addPaper]
    have h0 : Graph.empty.edges = ([] : List Edge) := rfl
    rw [h0, List.nil_append, List.nil_append]
    exact List.perm_append_comm

/-- Witness for the amended C1: two records for the same paper `"P"` with
equal reaction-type buckets merge to the same `Reaction_P` node in either
order. -/
theorem C1_merge_order_independent_amended_witness :
    (mergeTwo canonId classifyNone
        ("s1", ⟨some "P", some ⟨none, none, none, some ["A"]⟩, none⟩)
        ("s2", ⟨some "P", some ⟨none, none, none, some ["A"]⟩, none⟩)).find "Reaction_P" =
      (mergeTwo canonId classifyNone
        ("s2", ⟨some "P", some ⟨none, none, none, some ["A"]⟩, none⟩)
        ("s1", ⟨some "P", some ⟨none, none, none, some ["A"]⟩, none⟩)).find "Reaction_P" :=
  (C1_merge_order_independent_amended canonId classifyNone
    ("s1", ⟨some "P", some ⟨none, none, none, some ["A"]⟩, none⟩)
    ("s2", ⟨some "P", some ⟨none, none, none, some ["A"]⟩, none⟩)
    (Or.inl rfl) (fun _ => Or.inl rfl)).1 "Reaction_P"

/-- Claim C3: label refinement monotonicity.  In any graph state the builder
can reach, if a `Reaction`-typed node carries a label different from the
fallback "Catalytic Process", then merging any further document record
leaves it with a label that is still not "Catalytic Process": the refinement
rule only overwrites with a non-fallback label, and the only other write
that can touch the node (the unconditional paper upsert, when the record's
source identifier equals this node's key) writes the key itself, which lives
in the `Reaction_` namespace and therefore is not the fallback string. -/
theorem C3_label_refinement_monotone (canon : String → String)
    (classify : String → List String) (g : Graph) (hg : Reachable canon classify g)
    (id : String) (nd : NodeData) (hfind : g.find id = some nd)
    (hty : nd.type_ = "Reaction") (hlab : nd.label ≠ "Catalytic Process")
    (stem : String) (data : PaperJson) :
    ∃ nd', (addPaperToGraph canon classify g stem data).find id = some nd' ∧
      nd'.label ≠ "Catalytic Process" := by
  obtain ⟨s, hid⟩ := (reachable_shapeInv canon classify g hg id nd hfind).1 hty
  rw [find_addPaper, hfind]
  refine ⟨presentUpdate stem data id nd, rfl, ?_⟩
  unfold presentUpdate
  by_cases hip : id = paperIdOf stem data
  · rw [if_pos hip]
    show paperIdOf stem data ≠ "Catalytic Process"
    rw [← hip, hid]
    exact reaction_key_ne_CP s
  · rw [if_neg hip]
    by_cases hcond : id = "Reaction_" ++ paperIdOf stem data ∧
        rxnLabelOf data ≠ "Catalytic Process"
    · rw [if_pos hcond]
      exact hcond.2
    · rw [if_neg hcond]
      exact hlab

/-- Witness for C3: `Reaction_P` acquires label `"A"` from a first record;
merging a second record for the same paper with an empty reaction-type
bucket leaves a non-fallback label in place. -/
theorem C3_label_refinement_monotone_witness :
    ∃ nd', (addPaperToGraph canonId classifyNone
        (addPaperToGraph canonId classifyNone Graph.empty "s0"
          ⟨some "P", some ⟨none, none, none, some ["A"]⟩, none⟩)
        "s1" ⟨some "P", none, none⟩).find "Reaction_P" = some nd' ∧
      nd'.label ≠ "Catalytic Process" :=
  C3_label_refinement_monotone canonId classifyNone
    (addPaperToGraph canonId classifyNone Graph.empty "s0"
      ⟨some "P", some ⟨none, none, none, some ["A"]⟩, none⟩)
    ⟨[("s0", ⟨some "P", some ⟨none, none, none, some ["A"]⟩, none⟩)], rfl⟩
    "Reaction_P" ⟨"Reaction", "A", none, none⟩ (by decide) rfl (by decide)
    "s1" ⟨some "P", none, none⟩

lemma keepOr_none_right (a : Option NodeData) : keepOr a none = a := by
  cases a <;> rfl

section Builder

variable (canon : String → String) (classify : String → List String)

lemma find?_molKey_none_of_shape (target : String) (h : ∀ c, target ≠ "MOL_" ++ c)
    (l : List String) :
    (l.find? (fun raw => molKeyOf canon raw == target)) = none :=
  List.find?_eq_none.mpr (fun raw _ hb => h _ (eq_of_beq hb).symm)

lemma find?_prefixed_none_of_ne (pre target : String) (h : ∀ c, target ≠ pre ++ c)
    (l : List String) :
    (l.find? (fun a => (pre ++ a) == target)) = none :=
  List.find?_eq_none.mpr (fun a _ hb => h a (eq_of_beq hb).symm)

lemma freshData_at_molKey (stem : String) (data : PaperJson) (x : String)
    (hp : "MOL_" ++ x ≠ paperIdOf stem data) :
    freshData canon classify stem data ("MOL_" ++ x) =
      (((visRaws data).filter (fun raw => !(decide (raw.length < 10)))).find?
        (fun raw => molKeyOf canon raw == "MOL_" ++ x)).map (molDataOf canon classify) := by
  unfold freshData
  rw [if_neg hp, if_neg (fun h => reaction_key_ne_mol (paperIdOf stem data) x h.symm)]
  rw [find?_prefixed_none_of_ne "PEP_" _ (fun c => mol_key_ne_pep x c) _,
    find?_prefixed_none_of_ne "COND_" _ (fun c => mol_key_ne_cond x c) _,
    find?_prefixed_none_of_ne "CHEM_" _ (fun c => mol_key_ne_chem x c) _]
  simp only [Option.map_none', keepOr_none, keepOr_none_right]

lemma freshData_at_pepKey (stem : String) (data : PaperJson) (x : String)
    (hp : "PEP_" ++ x ≠ paperIdOf stem data) :
    freshData canon classify stem data ("PEP_" ++ x) =
      ((pepsOf data).find? (fun a => ("PEP_" ++ a) == "PEP_" ++ x)).map
        (fun pep => (⟨"Peptide", pep, none, none⟩ : NodeData)) := by
  unfold freshData
  rw [if_neg hp, if_neg (fun h => reaction_key_ne_pep (paperIdOf stem data) x h.symm)]
  rw [find?_molKey_none_of_shape canon _ (fun c h => mol_key_ne_pep c x h.symm) _,
    find?_prefixed_none_of_ne "COND_" _ (fun c => pep_key_ne_cond x c) _,
    find?_prefixed_none_of_ne "CHEM_" _ (fun c => pep_key_ne_chem x c) _]
  simp only [Option.map_none', keepOr_none, keepOr_none_right]

lemma freshData_at_condKey (stem : String) (data : PaperJson) (x : String)
    (hp : "COND_" ++ x ≠ paperIdOf stem data) :
    freshData canon classify stem data ("COND_" ++ x) =
      ((condsOf data).find? (fun a => ("COND_" ++ a) == "COND_" ++ x)).map
        (fun c => (⟨"Condition", c, none, none⟩ : NodeData)) := by
  unfold freshData
  rw [if_neg hp, if_neg (fun h => reaction_key_ne_cond (paperIdOf stem data) x h.symm)]
  rw [find?_molKey_none_of_shape canon _ (fun c h => mol_key_ne_cond c x h.symm) _,
    find?_prefixed_none_of_ne "PEP_" _ (fun c h => pep_key_ne_cond c x h.symm) _,
    find?_prefixed_none_of_ne "CHEM_" _ (fun c => cond_key_ne_chem x c) _]
  simp only [Option.map_none', keepOr_none, keepOr_none_right]

lemma freshData_at_chemKey (stem : String) (data : PaperJson) (x : String)
    (hp : "CHEM_" ++ x ≠ paperIdOf stem data) :
    freshData canon classify stem data ("CHEM_" ++ x) =
      ((chemsOf data).find? (fun a => ("CHEM_" ++ a) == "CHEM_" ++ x)).map
        (fun c => (⟨"Chemical", c, none, none⟩ : NodeData)) := by
  unfold freshData
  rw [if_neg hp, if_neg (fun h => reaction_key_ne_chem (paperIdOf stem data) x h.symm)]
  rw [find?_molKey_none_of_shape canon _ (fun c h => mol_key_ne_chem c x h.symm) _,
    find?_prefixed_none_of_ne "PEP_" _ (fun c h => pep_key_ne_chem c x h.symm) _,
    find?_prefixed_none_of_ne "COND_" _ (fun c h => cond_key_ne_chem c x h.symm) _]
  simp only [Option.map_none', keepOr_none, keepOr_none_right]

end Builder

section Builder

variable (canon : String → String) (classify : String → List String)

/-- The `Molecule` node keys one record derives (plausible entries only). -/
def molKeys (data : PaperJson) : List String :=
  ((visRaws data).filter (fun raw => !(decide (raw.length < 10)))).map (molKeyOf canon)

def pepKeys (data : PaperJson) : List String := (pepsOf data).map (fun a => "PEP_" ++ a)

def condKeys (data : PaperJson) : List String := (condsOf data).map (fun a => "COND_" ++ a)

def chemKeys (data : PaperJson) : List String := (chemsOf data).map (fun a => "CHEM_" ++ a)

/-- All node keys a record derives besides its paper and reaction keys. -/
def bucketKeys (data : PaperJson) : List String :=
  molKeys canon data ++ pepKeys data ++ condKeys data ++ chemKeys data

lemma not_mem_map_of_all_ne {α : Type} (f : α → String) (target : String)
    (h : ∀ a, target ≠ f a) (l : List α) : target ∉ l.map f := by
  intro hm
  rcases List.mem_map.mp hm with ⟨a, _, ha⟩
  exact h a ha.symm

lemma freshData_isSome_iff (stem : String) (data : PaperJson) (id : String) :
    (freshData canon classify stem data id).isSome = true ↔
      (id = paperIdOf stem data ∨ id = "Reaction_" ++ paperIdOf stem data ∨
       id ∈ bucketKeys canon data) := by
  constructor
  · intro h
    rcases ho : freshData canon classify stem data id with _ | nd
    · rw [ho] at h
      simp at h
    · rcases freshData_eq_some canon classify stem data id nd ho with
        ⟨hid, _⟩ | ⟨hid, _⟩ |
        ⟨_, _, ⟨raw, hraw, hid, _⟩ | ⟨x, hx, hid, _⟩ | ⟨x, hx, hid, _⟩ | ⟨x, hx, hid, _⟩⟩
      · exact Or.inl hid
      · exact Or.inr (Or.inl hid)
      · refine Or.inr (Or.inr ?_)
        unfold bucketKeys
        refine List.mem_append.mpr (Or.inl (List.mem_append.mpr (Or.inl
          (List.mem_append.mpr (Or.inl ?_)))))
        exact hid ▸ List.mem_map.mpr ⟨raw, hraw, rfl⟩
      · refine Or.inr (Or.inr ?_)
        unfold bucketKeys
        refine List.mem_append.mpr (Or.inl (List.mem_append.mpr (Or.inl
          (List.mem_append.mpr (Or.inr ?_)))))
        exact hid ▸ List.mem_map.mpr ⟨x, hx, rfl⟩
      · refine Or.inr (Or.inr ?_)
        unfold bucketKeys
        refine List.mem_append.mpr (Or.inl (List.mem_append.mpr (Or.inr ?_)))
        exact hid ▸ List.mem_map.mpr ⟨x, hx, rfl⟩
      · refine Or.inr (Or.inr ?_)
        unfold bucketKeys
        refine List.mem_append.mpr (Or.inr ?_)
        exact hid ▸ List.mem_map.mpr ⟨x, hx, rfl⟩
  · intro h
    by_cases hip : id = paperIdOf stem data
    · rw [hip, freshData_paper]
      rfl
    · by_cases hir : id = "Reaction_" ++ paperIdOf stem data
      · rw [hir, freshData_reaction]
        rfl
      · rcases h with hp | hr | hbk
        · exact absurd hp hip
        · exact absurd hr hir
        · unfold bucketKeys at hbk
          rcases List.mem_append.mp hbk with hbk | hchem
          · rcases List.mem_append.mp hbk with hbk | hcond
            · rcases List.mem_append.mp hbk with hmol | hpep
              · rcases List.mem_map.mp hmol with ⟨raw, hraw, hid⟩
                have hx : id = "MOL_" ++ canon (firstFragment raw) := hid.symm
                rw [hx, freshData_at_molKey canon classify stem data _ (hx ▸ hip)]
                have : (((visRaws data).filter (fun raw => !(decide (raw.length < 10)))).find?
                    (fun r => molKeyOf canon r == "MOL_" ++ canon (firstFragment raw))).isSome :=
                  List.find?_isSome.mpr ⟨raw, hraw, by simp [molKeyOf]⟩
                rcases hfo : ((visRaws data).filter
                    (fun raw => !(decide (raw.length < 10)))).find?
                    (fun r => molKeyOf canon r == "MOL_" ++ canon (firstFragment raw)) with _ | r
                · rw [hfo] at this
                  simp at this
                · rw [hfo]
                  rfl
              · rcases List.mem_map.mp hpep with ⟨x, hx0, hid⟩
                have hx : id = "PEP_" ++ x := hid.symm
                rw [hx, freshData_at_pepKey canon classify stem data _ (hx ▸ hip)]
                have : ((pepsOf data).find? (fun a => ("PEP_" ++ a) == "PEP_" ++ x)).isSome :=
                  List.find?_isSome.mpr ⟨x, hx0, by simp⟩
                rcases hfo : (pepsOf data).find? (fun a => ("PEP_" ++ a) == "PEP_" ++ x)
                  with _ | r
                · rw [hfo] at this
                  simp at this
                · rfl
            · rcases List.mem_map.mp hcond with ⟨x, hx0, hid⟩
              have hx : id = "COND_" ++ x := hid.symm
              rw [hx, freshData_at_condKey canon classify stem data _ (hx ▸ hip)]
              have : ((condsOf data).find? (fun a => ("COND_" ++ a) == "COND_" ++ x)).isSome :=
                List.find?_isSome.mpr ⟨x, hx0, by simp⟩
              rcases hfo : (condsOf data).find? (fun a => ("COND_" ++ a) == "COND_" ++ x)
                with _ | r
              · rw [hfo] at this
                simp at this
              · rfl
          · rcases List.mem_map.mp hchem with ⟨x, hx0, hid⟩
            have hx : id = "CHEM_" ++ x := hid.symm
            rw [hx, freshData_at_chemKey canon classify stem data _ (hx ▸ hip)]
            have : ((chemsOf data).find? (fun a => ("CHEM_" ++ a) == "CHEM_" ++ x)).isSome :=
              List.find?_isSome.mpr ⟨x, hx0, by simp⟩
            rcases hfo : (chemsOf data).find? (fun a => ("CHEM_" ++ a) == "CHEM_" ++ x)
              with _ | r
            · rw [hfo] at this
              simp at this
            · rfl

end Builder

section Builder

variable (canon : String → String) (classify : String → List String)

/-- Types of the freshly created nodes, as a function of the identifier: the
single paper key is the only `Paper` node, the single reaction key the only
`Reaction` node, and each bucket key carries exactly its bucket's type —
assuming the record's source identifier does not itself collide with one of
its derived bucket keys. -/
lemma freshData_types (stem : String) (data : PaperJson)
    (Hwf : paperIdOf stem data ∉ bucketKeys canon data)
    (id : String) (nd : NodeData) (h : freshData canon classify stem data id = some nd) :
    (nd.type_ = "Paper" ↔ id = paperIdOf stem data) ∧
    (nd.type_ = "Reaction" ↔ id = "Reaction_" ++ paperIdOf stem data) ∧
    (nd.type_ = "Molecule" ↔ id ∈ molKeys canon data) ∧
    (nd.type_ = "Peptide" ↔ id ∈ pepKeys data) ∧
    (nd.type_ = "Condition" ↔ id ∈ condKeys data) ∧
    (nd.type_ = "Chemical" ↔ id ∈ chemKeys data) := by
  have hwf' := Hwf
  unfold bucketKeys at hwf'
  simp only [List.mem_append, not_or] at hwf'
  obtain ⟨⟨⟨hwm, hwp⟩, hwc⟩, hwch⟩ := hwf'
  have hpr : paperIdOf stem data ≠ "Reaction_" ++ paperIdOf stem data :=
    String.ne_append_self "Reaction_" _ (by decide)
  rcases freshData_eq_some canon classify stem data id nd h with
    ⟨hid, hnd⟩ | ⟨hid, hnd⟩ |
    ⟨_, _, ⟨raw, hraw, hid, hnd⟩ | ⟨x, hx, hid, hnd⟩ | ⟨x, hx, hid, hnd⟩ | ⟨x, hx, hid, hnd⟩⟩
  · subst hid
    subst hnd
    exact ⟨iff_of_true rfl rfl, iff_of_false (by simp) hpr, iff_of_false (by simp) hwm,
      iff_of_false (by simp) hwp, iff_of_false (by simp) hwc, iff_of_false (by simp) hwch⟩
  · subst hid
    subst hnd
    exact ⟨iff_of_false (by simp) (fun hh => hpr hh.symm), iff_of_true rfl rfl,
      iff_of_false (by simp)
        (not_mem_map_of_all_ne _ _ (fun raw => reaction_key_ne_mol _ _) _),
      iff_of_false (by simp)
        (not_mem_map_of_all_ne _ _ (fun a => reaction_key_ne_pep _ _) _),
      iff_of_false (by simp)
        (not_mem_map_of_all_ne _ _ (fun a => reaction_key_ne_cond _ _) _),
      iff_of_false (by simp)
        (not_mem_map_of_all_ne _ _ (fun a => reaction_key_ne_chem _ _) _)⟩
  · subst hid
    subst hnd
    have hmem : molKeyOf canon raw ∈ molKeys canon data := List.mem_map_of_mem _ hraw
    exact ⟨iff_of_false (by simp [molDataOf]) (fun hh => hwm (hh ▸ hmem)),
      iff_of_false (by simp [molDataOf])
        (fun hh => reaction_key_ne_mol (paperIdOf stem data) (canon (firstFragment raw))
          hh.symm),
      iff_of_true (by simp [molDataOf]) hmem,
      iff_of_false (by simp [molDataOf])
        (not_mem_map_of_all_ne _ _ (fun a => mol_key_ne_pep (canon (firstFragment raw)) a) _),
      iff_of_false (by simp [molDataOf])
        (not_mem_map_of_all_ne _ _ (fun a => mol_key_ne_cond (canon (firstFragment raw)) a) _),
      iff_of_false (by simp [molDataOf])
        (not_mem_map_of_all_ne _ _ (fun a => mol_key_ne_chem (canon (firstFragment raw)) a) _)⟩
  · subst hid
    subst hnd
    have hmem : ("PEP_" ++ x) ∈ pepKeys data := List.mem_map_of_mem _ hx
    exact ⟨iff_of_false (by simp) (fun hh => hwp (hh ▸ hmem)),
      iff_of_false (by simp)
        (fun hh => reaction_key_ne_pep (paperIdOf stem data) x hh.symm),
      iff_of_false (by simp)
        (not_mem_map_of_all_ne _ _ (fun a => fun hh =>
          mol_key_ne_pep (canon (firstFragment a)) x hh.symm) _),
      iff_of_true rfl hmem,
      iff_of_false (by simp)
        (not_mem_map_of_all_ne _ _ (fun a => pep_key_ne_cond x a) _),
      iff_of_false (by simp)
        (not_mem_map_of_all_ne _ _ (fun a => pep_key_ne_chem x a) _)⟩
  · subst hid
    subst hnd
    have hmem : ("COND_" ++ x) ∈ condKeys data := List.mem_map_of_mem _ hx
    exact ⟨iff_of_false (by simp) (fun hh => hwc (hh ▸ hmem)),
      iff_of_false (by simp)
        (fun hh => reaction_key_ne_cond (paperIdOf stem data) x hh.symm),
      iff_of_false (by simp)
        (not_mem_map_of_all_ne _ _ (fun a => fun hh =>
          mol_key_ne_cond (canon (firstFragment a)) x hh.symm) _),
      iff_of_false (by simp)
        (not_mem_map_of_all_ne _ _ (fun a => fun hh =>
          pep_key_ne_cond a x hh.symm) _),
      iff_of_true rfl hmem,
      iff_of_false (by simp)
        (not_mem_map_of_all_ne _ _ (fun a => cond_key_ne_chem x a) _)⟩
  · subst hid
    subst hnd
    have hmem : ("CHEM_" ++ x) ∈ chemKeys data := List.mem_map_of_mem _ hx
    exact ⟨iff_of_false (by simp) (fun hh => hwch (hh ▸ hmem)),
      iff_of_false (by simp)
        (fun hh => reaction_key_ne_chem (paperIdOf stem data) x hh.symm),
      iff_of_false (by simp)
        (not_mem_map_of_all_ne _ _ (fun a => fun hh =>
          mol_key_ne_chem (canon (firstFragment a)) x hh.symm) _),
      iff_of_false (by simp)
        (not_mem_map_of_all_ne _ _ (fun a => fun hh =>
          pep_key_ne_chem a x hh.symm) _),
      iff_of_false (by simp)
        (not_mem_map_of_all_ne _ _ (fun a => fun hh =>
          cond_key_ne_chem a x hh.symm) _),
      iff_of_true rfl hmem⟩

end Builder

/-- Claim C4: identity uniqueness / idempotence.  For a well-formed record
(one whose source identifier is not itself one of its derived
`MOL_`/`PEP_`/`COND_`/`CHEM_` node keys — `Hwf`), merging it twice into an
empty graph (1) leaves the node map — node set and all node attributes —
pointwise equal to the single merge, (2) exactly doubles every edge's
multiplicity, (3) the node set of the single merge is exactly one paper key,
one reaction key and one key per distinct canonical-molecule /
peptide / condition / chemical string, and (4) the `Paper`-typed node is
exactly the paper key, the `Reaction`-typed node exactly the reaction key,
and the `Molecule`/`Peptide`/`Condition`/`Chemical`-typed nodes exactly the
corresponding derived keys — never duplicates. -/
theorem C4_merge_twice_idempotent (canon : String → String)
    (classify : String → List String) (stem : String) (data : PaperJson)
    (Hwf : paperIdOf stem data ∉ bucketKeys canon data) :
    (∀ id, (addPaperToGraph canon classify
        (addPaperToGraph canon classify Graph.empty stem data) stem data).find id =
      (addPaperToGraph canon classify Graph.empty stem data).find id) ∧
    ((addPaperToGraph canon classify
        (addPaperToGraph canon classify Graph.empty stem data) stem data).edges =
      (addPaperToGraph canon classify Graph.empty stem data).edges ++
        (addPaperToGraph canon classify Graph.empty stem data).edges) ∧
    (∀ id, ((addPaperToGraph canon classify Graph.empty stem data).find id).isSome = true ↔
      (id = paperIdOf stem data ∨ id = "Reaction_" ++ paperIdOf stem data ∨
       id ∈ bucketKeys canon data)) ∧
    (∀ id nd, (addPaperToGraph canon classify Graph.empty stem data).find id = some nd →
      ((nd.type_ = "Paper" ↔ id = paperIdOf stem data) ∧
       (nd.type_ = "Reaction" ↔ id = "Reaction_" ++ paperIdOf stem data) ∧
       (nd.type_ = "Molecule" ↔ id ∈ molKeys canon data) ∧
       (nd.type_ = "Peptide" ↔ id ∈ pepKeys data) ∧
       (nd.type_ = "Condition" ↔ id ∈ condKeys data) ∧
       (nd.type_ = "Chemical" ↔ id ∈ chemKeys data))) := by
  refine ⟨?_, ?_, ?_, ?_⟩
  · intro id
    rw [find_addPaper]
    rcases h1 : (addPaperToGraph canon classify Graph.empty stem data).find id with _ | old
    · have he := find_addPaper_empty canon classify stem data id
      rw [h1] at he
      exact he.symm
    · have he := find_addPaper_empty canon classify stem data id
      rw [h1] at he
      show some (presentUpdate stem data id old) = some old
      rcases freshData_eq_some canon classify stem data id old he.symm with
        ⟨hid, hnd⟩ | ⟨hid, hnd⟩ | ⟨hip, hir, _⟩
      · subst hid
        subst hnd
        rw [presentUpdate_paper]
      · subst hid
        subst hnd
        rw [presentUpdate_reaction]
        split <;> rfl
      · rw [presentUpdate_other stem data id old hip hir]
  · rw [edges_addPaper, edges_addPaper]
    have h0 : Graph.empty.edges = ([] : List Edge) := rfl
    rw [h0]
    simp
  · intro id
    rw [find_addPaper_empty]
    exact freshData_isSome_iff canon classify stem data id
  · intro id nd h
    rw [find_addPaper_empty] at h
    exact freshData_types canon classify stem data Hwf id nd h

/-- Witness for C4: a full record — paper `"Q"`, reaction type
`"Hydrolysis"`, peptide `"Ac-HLVFFAE"`, one 12-character molecule — merged
twice gives the same `Molecule` node as merging once. -/
theorem C4_merge_twice_idempotent_witness :
    (addPaperToGraph canonId classifyNone
        (addPaperToGraph canonId classifyNone Graph.empty "s"
          ⟨some "Q", some ⟨some ["Ac-HLVFFAE"], none, none, some ["Hydrolysis"]⟩,
            some [⟨some "CCCCCCCCCCCC"⟩]⟩) "s"
        ⟨some "Q", some ⟨some ["Ac-HLVFFAE"], none, none, some ["Hydrolysis"]⟩,
          some [⟨some "CCCCCCCCCCCC"⟩]⟩).find "MOL_CCCCCCCCCCCC" =
      (addPaperToGraph canonId classifyNone Graph.empty "s"
        ⟨some "Q", some ⟨some ["Ac-HLVFFAE"], none, none, some ["Hydrolysis"]⟩,
          some [⟨some "CCCCCCCCCCCC"⟩]⟩).find "MOL_CCCCCCCCCCCC" :=
  (C4_merge_twice_idempotent canonId classifyNone "s"
    ⟨some "Q", some ⟨some ["Ac-HLVFFAE"], none, none, some ["Hydrolysis"]⟩,
      some [⟨some "CCCCCCCCCCCC"⟩]⟩ (by decide)).1 "MOL_CCCCCCCCCCCC"

/-- Claim C8: Molecule node creation.  (1) If after a merge a node is typed
`Molecule`, then either it was already a `Molecule` node before the merge,
or it comes from a visual entity whose raw structure notation has length ≥
10 (the minimum plausibility threshold — a length-3 notation can create no
Molecule node, and the merge is a total function, so no crash), is keyed
`"MOL_" +` the canonicalization of the notation's first fragment, and
carries `reactivity_class` equal to the `" | "`-joined matched tag set or
the literal `"Unknown"` when zero patterns match.  (2) When the fragment is
unparseable, its canonicalization is the unchanged string, so the key is
`"MOL_" +` the raw first fragment (the raw string itself when the notation
has no `.` separator, as in the witness). -/
theorem C8_molecule_threshold_key_reactivity (μ : Type)
    (MolFromSmiles : String → Option μ) (MolToSmiles : μ → String)
    (classify : String → List String) (g : Graph) (stem : String) (data : PaperJson)
    (id : String) (nd : NodeData) :
    ((addPaperToGraph (canonicalize MolFromSmiles MolToSmiles) classify
        g stem data).find id = some nd →
      nd.type_ = "Molecule" →
      ((∃ old, g.find id = some old ∧ old.type_ = "Molecule") ∨
        (∃ raw ∈ visRaws data, 10 ≤ raw.length ∧
          id = "MOL_" ++ canonicalize MolFromSmiles MolToSmiles (firstFragment raw) ∧
          nd = ⟨"Molecule",
            String.mk ((canonicalize MolFromSmiles MolToSmiles
              (firstFragment raw)).data.take 20) ++ "...",
            some (canonicalize MolFromSmiles MolToSmiles (firstFragment raw)),
            some (if (classify (canonicalize MolFromSmiles MolToSmiles
                (firstFragment raw))).isEmpty then "Unknown"
              else String.intercalate " | "
                (classify (canonicalize MolFromSmiles MolToSmiles (firstFragment raw))))⟩))) ∧
    (∀ s, MolFromSmiles s = none →
      canonicalize MolFromSmiles MolToSmiles s = s) := by
  constructor
  · intro h hty
    rw [find_addPaper] at h
    rcases hg : g.find id with _ | old
    · rw [hg] at h
      rcases freshData_eq_some _ classify stem data id nd h with
        ⟨_, hnd⟩ | ⟨_, hnd⟩ |
        ⟨_, _, ⟨raw, hraw, hid, hnd⟩ | ⟨x, _, _, hnd⟩ | ⟨x, _, _, hnd⟩ | ⟨x, _, _, hnd⟩⟩
      · subst hnd
        exact absurd hty (by simp)
      · subst hnd
        exact absurd hty (by simp)
      · refine Or.inr ⟨raw, List.mem_of_mem_filter hraw, ?_, hid, hnd.trans rfl⟩
        have := List.of_mem_filter hraw
        simp only [Bool.not_eq_true', decide_eq_false_iff_not, Nat.not_lt] at this
        exact this
      · subst hnd
        exact absurd hty (by simp)
      · subst hnd
        exact absurd hty (by simp)
      · subst hnd
        exact absurd hty (by simp)
    · rw [hg] at h
      have hnd : nd = presentUpdate stem data id old := (Option.some_inj.mp h).symm
      subst hnd
      unfold presentUpdate at hty ⊢
      by_cases hip : id = paperIdOf stem data
      · rw [if_pos hip] at hty
        exact absurd hty (by simp)
      · rw [if_neg hip] at hty ⊢
        by_cases hcond : id = "Reaction_" ++ paperIdOf stem data ∧
            rxnLabelOf data ≠ "Catalytic Process"
        · rw [if_pos hcond] at hty
          exact Or.inl ⟨old, rfl, hty⟩
        · rw [if_neg hcond] at hty
          exact Or.inl ⟨old, rfl, hty⟩
  · intro s hs
    unfold canonicalize
    rw [hs]

/-- Witness for C8: under a parser that rejects everything, the 12-character
dot-free notation `"CCCCCCCCCCCC"` (length ≥ 10) still yields a `Molecule`
node keyed by the unchanged raw string, with `reactivity_class = "Unknown"`;
and canonicalization of the unparseable fragment returns it unchanged. -/
theorem C8_molecule_threshold_key_reactivity_witness :
    ((∃ old, Graph.empty.find "MOL_CCCCCCCCCCCC" = some old ∧ old.type_ = "Molecule") ∨
      (∃ raw ∈ visRaws ⟨some "W", none, some [⟨some "CCCCCCCCCCCC"⟩]⟩, 10 ≤ raw.length ∧
        "MOL_CCCCCCCCCCCC" = "MOL_" ++ canonicalize (fun _ : String => (none : Option Nat))
          (fun _ => "") (firstFragment raw) ∧
        (⟨"Molecule", "CCCCCCCCCCCC...", some "CCCCCCCCCCCC", some "Unknown"⟩ : NodeData) =
          ⟨"Molecule",
            String.mk ((canonicalize (fun _ : String => (none : Option Nat)) (fun _ => "")
              (firstFragment raw)).data.take 20) ++ "...",
            some (canonicalize (fun _ : String => (none : Option Nat)) (fun _ => "")
              (firstFragment raw)),
            some (if (classifyNone (canonicalize (fun _ : String => (none : Option Nat))
                (fun _ => "") (firstFragment raw))).isEmpty then "Unknown"
              else String.intercalate " | "
                (classifyNone (canonicalize (fun _ : String => (none : Option Nat))
                  (fun _ => "") (firstFragment raw))))⟩)) ∧
    canonicalize (fun _ : String => (none : Option Nat)) (fun _ => "") "CCCCCCCCCCCC" =
      "CCCCCCCCCCCC" :=
  ⟨(C8_molecule_threshold_key_reactivity Nat (fun _ => none) (fun _ => "") classifyNone
      Graph.empty "s" ⟨some "W", none, some [⟨some "CCCCCCCCCCCC"⟩]⟩ "MOL_CCCCCCCCCCCC"
      ⟨"Molecule", "CCCCCCCCCCCC...", some "CCCCCCCCCCCC", some "Unknown"⟩).1
    (by decide) rfl,
   (C8_molecule_threshold_key_reactivity Nat (fun _ => none) (fun _ => "") classifyNone
      Graph.empty "s" ⟨some "W", none, some [⟨some "CCCCCCCCCCCC"⟩]⟩ "MOL_CCCCCCCCCCCC"
      ⟨"Molecule", "CCCCCCCCCCCC...", some "CCCCCCCCCCCC", some "Unknown"⟩).2
    "CCCCCCCCCCCC" rfl⟩

/-- Claim C10, counterexample: a `Molecule` node `MOL_CCCCCCCCCC` exists
(built from a first record); merging a further record whose `source_file` is
the very string `"MOL_CCCCCCCCCC"` makes the unconditional paper upsert
overwrite the node's `label` (and `type`) — the stored label changes from
the truncated-SMILES preview to the identifier, refuting the claim as
stated for every record. -/
theorem C10_molecule_frozen_counterexample :
    ((addPaperToGraph canonId classifyNone
        (addPaperToGraph canonId classifyNone Graph.empty "sa"
          ⟨some "PA", none, some [⟨some "CCCCCCCCCC"⟩]⟩)
        "sb" ⟨some "MOL_CCCCCCCCCC", none, none⟩).find "MOL_CCCCCCCCCC").map (·.label) =
      some "MOL_CCCCCCCCCC" ∧
    ((addPaperToGraph canonId classifyNone Graph.empty "sa"
        ⟨some "PA", none, some [⟨some "CCCCCCCCCC"⟩]⟩).find "MOL_CCCCCCCCCC").map (·.label) =
      some "CCCCCCCCCC..." := by
  exact ⟨by decide, by decide⟩

/-- Claim C10 (amended): Molecule attributes are frozen at first creation —
for every `Molecule` node of a reachable graph, merging any further record
whose source identifier differs from the node's key leaves the node's
entire attribute record (canonical structure, label, reactivity_class, and
type) unchanged, and every newly added edge incident to the node is a
`PARTICIPANT_IN` edge.  (A record whose source identifier equals the
molecule key overwrites the label and type, as the counterexample shows.) -/
theorem C10_molecule_frozen_amended (canon : String → String)
    (classify : String → List String) (g : Graph) (hg : Reachable canon classify g)
    (id : String) (nd : NodeData) (hfind : g.find id = some nd)
    (hty : nd.type_ = "Molecule") (stem : String) (data : PaperJson)
    (hip : id ≠ paperIdOf stem data) :
    ((addPaperToGraph canon classify g stem data).find id = some nd) ∧
    ((addPaperToGraph canon classify g stem data).edges =
      g.edges ++ docEdges canon stem data) ∧
    (∀ e ∈ docEdges canon stem data, (e.src = id ∨ e.dst = id) →
      e.relation = "PARTICIPANT_IN") := by
  obtain ⟨s, hid⟩ := (reachable_shapeInv canon classify g hg id nd hfind).2 hty
  have hir : id ≠ "Reaction_" ++ paperIdOf stem data := by
    intro h
    exact reaction_key_ne_mol (paperIdOf stem data) s (h.symm.trans hid)
  refine ⟨?_, edges_addPaper canon classify g stem data, ?_⟩
  · rw [find_addPaper, hfind]
    show some (presentUpdate stem data id nd) = some nd
    rw [presentUpdate_other stem data id nd hip hir]
  · intro e he hinc
    unfold docEdges at he
    rcases List.mem_cons.mp he with hrep | he
    · subst hrep
      rcases hinc with hsrc | hdst
      · exact absurd hsrc.symm hip
      · exact absurd hdst.symm hir
    · rcases List.mem_append.mp he with hmol | he
      · rcases List.mem_map.mp hmol with ⟨raw, _, hraw⟩
        rw [← hraw]
      · rcases List.mem_append.mp he with hpep | he
        · rcases List.mem_map.mp hpep with ⟨x, _, hx⟩
          subst hx
          rcases hinc with hsrc | hdst
          · exact absurd hsrc (by rw [hid]; exact fun hh => mol_key_ne_pep s x hh.symm)
          · exact absurd hdst.symm hir
        · rcases List.mem_append.mp he with hcond | hchem
          · rcases List.mem_map.mp hcond with ⟨x, _, hx⟩
            subst hx
            rcases hinc with hsrc | hdst
            · exact absurd hsrc.symm hir
            · exact absurd hdst (by rw [hid]; exact fun hh => mol_key_ne_cond s x hh.symm)
          · rcases List.mem_map.mp hchem with ⟨x, _, hx⟩
            subst hx
            rcases hinc with hsrc | hdst
            · exact absurd hsrc (by rw [hid]; exact fun hh => mol_key_ne_chem s x hh.symm)
            · exact absurd hdst.symm hir

/-- Witness for the amended C10: the `Molecule` node built from a first
record keeps its full attribute record when a second record with a
different paper identifier is merged. -/
theorem C10_molecule_frozen_amended_witness :
    (addPaperToGraph canonId classifyNone
        (addPaperToGraph canonId classifyNone Graph.empty "sa"
          ⟨some "PA", none, some [⟨some "CCCCCCCCCC"⟩]⟩)
        "sb" ⟨some "PB", none, some [⟨some "CCCCCCCCCC"⟩]⟩).find "MOL_CCCCCCCCCC" =
      some ⟨"Molecule", "CCCCCCCCCC...", some "CCCCCCCCCC", some "Unknown"⟩ :=
  (C10_molecule_frozen_amended canonId classifyNone
    (addPaperToGraph canonId classifyNone Graph.empty "sa"
      ⟨some "PA", none, some [⟨some "CCCCCCCCCC"⟩]⟩)
    ⟨[("sa", ⟨some "PA", none, some [⟨some "CCCCCCCCCC"⟩]⟩)], rfl⟩
    "MOL_CCCCCCCCCC" ⟨"Molecule", "CCCCCCCCCC...", some "CCCCCCCCCC", some "Unknown"⟩
    (by decide) rfl "sb" ⟨some "PB", none, some [⟨some "CCCCCCCCCC"⟩]⟩ (by decide)).1

lemma rcsFlags_eq_any (g : Graph) : ∀ (l : List String) (c d p : Bool),
    rcsFlags g l (c, d, p) =
      (c || l.any (fun n => nodeTypeOf g n == some "Peptide" ||
          nodeTypeOf g n == some "Chemical"),
       d || l.any (fun n => nodeTypeOf g n == some "Condition"),
       p || l.any (fun n => nodeTypeOf g n == some "Molecule")) := by
  intro l
  induction l with
  | nil =>
    intro c d p
    simp [rcsFlags]
  | cons n l ih =>
    intro c d p
    rw [rcsFlags, ih]
    simp [List.any_cons, Bool.or_assoc]

lemma rcsScore_eq (g : Graph) (r : String) :
    rcsScore g r =
      (if (∃ n ∈ allConnected g r, nodeTypeOf g n = some "Peptide" ∨
          nodeTypeOf g n = some "Chemical") then (4 : ℚ)/10 else 0) +
      (if (∃ n ∈ allConnected g r, nodeTypeOf g n = some "Condition")
        then (3 : ℚ)/10 else 0) +
      (if (∃ n ∈ allConnected g r, nodeTypeOf g n = some "Molecule")
        then (3 : ℚ)/10 else 0) := by
  unfold rcsScore
  rw [rcsFlags_eq_any]
  simp only [Bool.false_or]
  have h1 : ((allConnected g r).any (fun n => nodeTypeOf g n == some "Peptide" ||
      nodeTypeOf g n == some "Chemical") = true) ↔
      (∃ n ∈ allConnected g r, nodeTypeOf g n = some "Peptide" ∨
        nodeTypeOf g n = some "Chemical") := by
    simp [List.any_eq_true, Bool.or_eq_true]
  have h2 : ((allConnected g r).any (fun n => nodeTypeOf g n == some "Condition") = true) ↔
      (∃ n ∈ allConnected g r, nodeTypeOf g n = some "Condition") := by
    simp [List.any_eq_true]
  have h3 : ((allConnected g r).any (fun n => nodeTypeOf g n == some "Molecule") = true) ↔
      (∃ n ∈ allConnected g r, nodeTypeOf g n = some "Molecule") := by
    simp [List.any_eq_true]
  rw [if_congr h1 rfl rfl, if_congr h2 rfl rfl, if_congr h3 rfl rfl]

/-- Claim C9: the evaluator's RCS equals the arithmetic mean, over all
`Reaction`-typed nodes, of `0.4·[has a Peptide or Chemical neighbor] +
0.3·[has a Condition neighbor] + 0.3·[has a Molecule neighbor]`, where the
neighbors are the union of the reaction's predecessors and successors; RCS
is `0` when the graph has no `Reaction` node; and a reaction with a peptide
and a molecule neighbor but no condition scores `0.7` (concrete scenario in
the last conjunct).  Python's `0.4`/`0.3` floats and `statistics.mean` are
modelled exactly over `ℚ`. -/
theorem C9_rcs_mean_formula (g : Graph) :
    (calculate_rcs g =
      if ((g.nodes.filter (fun e => e.2.type_ == "Reaction")).map (·.1)) = [] then 0
      else (((g.nodes.filter (fun e => e.2.type_ == "Reaction")).map (·.1)).map
          (fun r =>
            (if (∃ n ∈ allConnected g r, nodeTypeOf g n = some "Peptide" ∨
                nodeTypeOf g n = some "Chemical") then (4 : ℚ)/10 else 0) +
            (if (∃ n ∈ allConnected g r, nodeTypeOf g n = some "Condition")
              then (3 : ℚ)/10 else 0) +
            (if (∃ n ∈ allConnected g r, nodeTypeOf g n = some "Molecule")
              then (3 : ℚ)/10 else 0))).sum /
        ((((g.nodes.filter (fun e => e.2.type_ == "Reaction")).map (·.1)).length : ℚ))) ∧
    ((∀ e ∈ g.nodes, ¬ e.2.type_ = "Reaction") → calculate_rcs g = 0) ∧
    (calculate_rcs ⟨[("R", ⟨"Reaction", "X", none, none⟩),
        ("P1", ⟨"Peptide", "Ac-X", none, none⟩), ("M1", ⟨"Molecule", "m", none, none⟩)],
      [⟨"P1", "R", "CATALYZES"⟩, ⟨"M1", "R", "PARTICIPANT_IN"⟩]⟩ = 7/10) := by
  refine ⟨?_, ?_, ?_⟩
  · unfold calculate_rcs
    by_cases hre : ((g.nodes.filter (fun e => e.2.type_ == "Reaction")).map (·.1)) = []
    · rw [if_pos hre]
      simp [hre]
    · have hne : ((g.nodes.filter (fun e => e.2.type_ == "Reaction")).map (·.1)).isEmpty
          = false := by
        simp [List.isEmpty_iff, hre]
      rw [if_neg hre]
      simp only [hne, Bool.false_eq_true, if_false, ite_false]
      have hsc : (((g.nodes.filter (fun e => e.2.type_ == "Reaction")).map (·.1)).map
          (rcsScore g)).isEmpty = false := by
        rcases hl : ((g.nodes.filter (fun e => e.2.type_ == "Reaction")).map (·.1))
          with _ | ⟨a, l⟩
        · exact absurd hl hre
        · rw [hl]
          rfl
      simp only [hsc, Bool.false_eq_true, if_false, ite_false]
      have hmapeq : (((g.nodes.filter (fun e => e.2.type_ == "Reaction")).map (·.1)).map
          (rcsScore g)) =
          (((g.nodes.filter (fun e => e.2.type_ == "Reaction")).map (·.1)).map
            (fun r =>
              (if (∃ n ∈ allConnected g r, nodeTypeOf g n = some "Peptide" ∨
                  nodeTypeOf g n = some "Chemical") then (4 : ℚ)/10 else 0) +
              (if (∃ n ∈ allConnected g r, nodeTypeOf g n = some "Condition")
                then (3 : ℚ)/10 else 0) +
              (if (∃ n ∈ allConnected g r, nodeTypeOf g n = some "Molecule")
                then (3 : ℚ)/10 else 0))) :=
        List.map_congr_left (fun r _ => rcsScore_eq g r)
      rw [hmapeq, List.length_map]
  · intro h
    unfold calculate_rcs
    have hre : (g.nodes.filter (fun e => e.2.type_ == "Reaction")) = [] := by
      rw [List.filter_eq_nil_iff]
      intro e he
      simp only [beq_eq_false_iff_ne, ne_eq, beq_iff_eq]
      exact h e he
    simp [hre]
  · have h1 : (((⟨[("R", ⟨"Reaction", "X", none, none⟩),
        ("P1", ⟨"Peptide", "Ac-X", none, none⟩), ("M1", ⟨"Molecule", "m", none, none⟩)],
        [⟨"P1", "R", "CATALYZES"⟩, ⟨"M1", "R", "PARTICIPANT_IN"⟩]⟩ : Graph).nodes.filter
          (fun e => e.2.type_ == "Reaction")).map (·.1)) = ["R"] := by decide
    have h2 : rcsFlags ⟨[("R", ⟨"Reaction", "X", none, none⟩),
        ("P1", ⟨"Peptide", "Ac-X", none, none⟩), ("M1", ⟨"Molecule", "m", none, none⟩)],
        [⟨"P1", "R", "CATALYZES"⟩, ⟨"M1", "R", "PARTICIPANT_IN"⟩]⟩
        (allConnected ⟨[("R", ⟨"Reaction", "X", none, none⟩),
          ("P1", ⟨"Peptide", "Ac-X", none, none⟩), ("M1", ⟨"Molecule", "m", none, none⟩)],
          [⟨"P1", "R", "CATALYZES"⟩, ⟨"M1", "R", "PARTICIPANT_IN"⟩]⟩ "R")
        (false, false, false) = (true, false, true) := by decide
    have h3 : rcsScore ⟨[("R", ⟨"Reaction", "X", none, none⟩),
        ("P1", ⟨"Peptide", "Ac-X", none, none⟩), ("M1", ⟨"Molecule", "m", none, none⟩)],
        [⟨"P1", "R", "CATALYZES"⟩, ⟨"M1", "R", "PARTICIPANT_IN"⟩]⟩ "R" =
        (4 : ℚ)/10 + 0 + (3 : ℚ)/10 := by
      simp only [rcsScore]
      rw [h2]
      norm_num
    unfold calculate_rcs
    rw [h1]
    simp only [List.map_cons, List.map_nil, h3]
    norm_num

/-- Witness for C9: the empty graph has no `Reaction` node, so its RCS is 0. -/
theorem C9_rcs_mean_formula_witness : calculate_rcs Graph.empty = 0 :=
  (C9_rcs_mean_formula Graph.empty).2.1 (fun e he => absurd he (List.not_mem_nil e))
